import Mathlib

/-!
Verification development for vifm's session-state subsystem (src/cfg/info.c).

The definitions below are a shallow embedding of the C code: the JSON document
produced/consumed by the subsystem is modelled as a typed record (`Doc`) whose
fields mirror the vifminfo.json schema documented at the top of info.c; parson's
keyed objects are modelled as insertion-ordered association lists; machine
integers are modelled as `Int` (no overflow is relevant to the properties
checked here); the live application model (views, marks store, trash store,
option tables, ...) that info.c reads and writes through external collaborators
is modelled as explicit environment records with the accessor functions those
collaborators provide.

Functions named after C functions (`merge_states`, `merge_history`,
`get_sort_info`, ...) are translated directly from the source.  A few leaf
collaborators whose implementation is outside src/ (marks.c, bmarks.c, hist.c,
filtering.c, utils/str.c) are marked `Modelled from the spec:` in their doc
comments and follow the specification's wording for them.
-/

/- ===================== parson-style keyed objects ===================== -/

/-- `json_object_get_value` by key: first entry with the key, in insertion
order (parson keeps one value per name and preserves insertion order). -/
def objLookup {α : Type} : List (String × α) → String → Option α
  | [], _ => none
  | (k', v') :: rest, k => if k' = k then some v' else objLookup rest k

/-- `json_object_has_value`. -/
def objHas {α : Type} (l : List (String × α)) (k : String) : Bool :=
  (objLookup l k).isSome

/-- `json_object_set_value`: replace the value of an existing key in place
(keeping its position) or append a fresh key at the end. -/
def objSet {α : Type} : List (String × α) → String → α → List (String × α)
  | [], k, v => [(k, v)]
  | (k', v') :: rest, k, v =>
    if k' = k then (k, v) :: rest else (k', v') :: objSet rest k v

/-- Keys of a keyed object are pairwise distinct (true of every object built
by the serializer, which adds each key once). -/
def keysUnique {α : Type} (l : List (String × α)) : Prop :=
  (l.map Prod.fst).Nodup

/-- Replace the element at an index of a list, leaving the list unchanged when
the index is out of range (mutation of one slot of a JSON array). -/
def listSet {α : Type} : List α → Nat → α → List α
  | [], _, _ => []
  | _ :: rest, 0, v => v :: rest
  | x :: rest, n + 1, v => x :: listSet rest n v

/- ===================== generic JSON values and the get_* accessors ===== -/

/-- parson's `JSON_Value`: the generic tagged document-tree node.  Numbers are
modelled as `Int` (the timestamps, positions and sizes stored by info.c are
integral). -/
inductive JValue : Type where
  | jnull : JValue
  | jbool : Bool → JValue
  | jnum : Int → JValue
  | jstr : String → JValue
  | jarr : List JValue → JValue
  | jobj : List (String × JValue) → JValue

/-- `get_bool` (info.c): looks the key up; assigns `*value` only when the value
is a boolean; returns `val != NULL`, i.e. whether the key exists at all.  The
result models the pair (C return value, assignment made to `*value`). -/
def get_bool (obj : List (String × JValue)) (key : String) : Bool × Option Bool :=
  match objLookup obj key with
  | none => (false, none)
  | some (JValue.jbool b) => (true, some b)
  | some _ => (true, none)

/-- `get_int` (info.c): assigns only for a number value; returns `val != NULL`. -/
def get_int (obj : List (String × JValue)) (key : String) : Bool × Option Int :=
  match objLookup obj key with
  | none => (false, none)
  | some (JValue.jnum x) => (true, some x)
  | some _ => (true, none)

/-- `get_double` (info.c): assigns only for a number value; returns `val != NULL`. -/
def get_double (obj : List (String × JValue)) (key : String) : Bool × Option Int :=
  match objLookup obj key with
  | none => (false, none)
  | some (JValue.jnum x) => (true, some x)
  | some _ => (true, none)

/-- `get_str` (info.c): assigns only for a string value; returns `val != NULL`. -/
def get_str (obj : List (String × JValue)) (key : String) : Bool × Option String :=
  match objLookup obj key with
  | none => (false, none)
  | some (JValue.jstr s) => (true, some s)
  | some _ => (true, none)

/- ===================== the typed document model ======================== -/

/-- One element of a pane tab's `history` array: `dir`/`file`/`relpos`.  Parsed
documents may omit fields, hence the `Option`s (a field that is absent, or
whose value has the wrong JSON type at the section level, reads as `none`;
the wrong-type behaviour of the scalar accessors themselves is studied
separately with `get_str` and friends on `JValue`). -/
structure DHistEntry : Type where
  dir : Option String
  file : Option String
  relpos : Option Int
deriving DecidableEq

/-- The `filters` object of a pane tab: `invert`, `dot`, `manual`, `auto`. -/
structure FiltersObj : Type where
  invert : Option Bool
  dot : Option Bool
  manual : Option String
  auto : Option String
deriving DecidableEq

/-- A pane tab (`ptabs` element). -/
structure PTab : Type where
  history : Option (List DHistEntry)
  filters : Option FiltersObj
  options : Option (List String)
  restoreLastLocation : Option Bool
  sorting : Option String
deriving DecidableEq

/-- A pane (`panes` element). -/
structure Pane : Type where
  ptabs : List PTab
deriving DecidableEq

/-- The `splitter` object of a global tab. -/
structure Splitter : Type where
  pos : Option Int
  orientation : Option String
  expanded : Option Bool
deriving DecidableEq

/-- A global tab (`gtabs` element). -/
structure GTab : Type where
  panes : List Pane
  splitter : Option Splitter
  activePane : Option Int
  preview : Option Bool
deriving DecidableEq

/-- An `assocs`/`xassocs`/`viewers` element: `matchers` and `cmd`. -/
structure AssocEntry : Type where
  matchers : Option String
  cmd : Option String
deriving DecidableEq

/-- A `marks` value: `dir`, `file`, `ts`. -/
structure MarkObj : Type where
  dir : Option String
  file : Option String
  ts : Option Int
deriving DecidableEq

/-- A `bmarks` value: `tags`, `ts`. -/
structure BmarkObj : Type where
  tags : Option String
  ts : Option Int
deriving DecidableEq

/-- A `trash` element: `trashed` and `original`. -/
structure TrashEntry : Type where
  trashed : Option String
  original : Option String
deriving DecidableEq

/-- A `dir-stack` element. -/
structure DirStackEntry : Type where
  leftDir : Option String
  leftFile : Option String
  rightDir : Option String
  rightFile : Option String
deriving DecidableEq

/-- The vifminfo.json document, one field per root section of the schema
described at the top of info.c.  `none` means the section key is absent from
the document (full omission, distinct from an empty section). -/
structure Doc : Type where
  gtabs : Option (List GTab)
  trash : Option (List TrashEntry)
  options : Option (List String)
  assocs : Option (List AssocEntry)
  xassocs : Option (List AssocEntry)
  viewers : Option (List AssocEntry)
  cmds : Option (List (String × String))
  marks : Option (List (String × MarkObj))
  bmarks : Option (List (String × BmarkObj))
  cmdHist : Option (List String)
  searchHist : Option (List String)
  promptHist : Option (List String)
  lfiltHist : Option (List String)
  regs : Option (List (String × List String))
  dirStack : Option (List DirStackEntry)
  useTermMultiplexer : Option Bool
  colorScheme : Option String
deriving DecidableEq

/-- The `vifminfo` feature-flag bitmask (`cfg.vifm_info`), one Boolean per
`VINFO_*` bit consulted by info.c. -/
structure VifmInfo : Type where
  options : Bool
  filetypes : Bool
  commands : Bool
  marks : Bool
  bookmarks : Bool
  tui : Bool
  dhistory : Bool
  state : Bool
  cs : Bool
  savedirs : Bool
  chistory : Bool
  shistory : Bool
  phistory : Bool
  fhistory : Bool
  dirstack : Bool
  registers : Bool
deriving DecidableEq

/- ===================== live-model environments ========================= -/

/-- What merge needs to know about one live view: its in-memory directory
history position (`view->history_pos`) and the `flist_hist_contains` membership
test of its in-memory history (flist_hist.c, an external collaborator). -/
structure ViewEnv : Type where
  historyPos : Int
  contains : String → Bool

/-- External collaborators consulted by the merge engine.  The functions are
the accessors merge calls into other modules: `is_dir` (utils/fs.c),
`ft_assoc_exists` (filetype.c) for each of the three association lists, live
mark/bookmark timestamps (marks.c/bmarks.c) backing `is_mark_older` and
`bmark_is_older`, `trash_has_entry` (trash.c) and `dir_stack_changed`
(dir_stack.c). -/
structure MergeEnv : Type where
  historyLen : Int
  lwin : ViewEnv
  rwin : ViewEnv
  is_dir : String → Bool
  assocExists : String → String → Bool
  xassocExists : String → String → Bool
  viewerExists : String → String → Bool
  marksTs : Char → Option Int
  bmarksTs : String → Option Int
  trashHasEntry : String → String → Bool
  dirStackChanged : Bool

/-- Modelled from the spec: `is_mark_older` lives in marks.c, which is not
under src/.  Per the spec's merge rule for marks ("overwrite current's entry
under that key only if the admixture entry's timestamp is strictly newer than
current's"), the live mark whose timestamp is `some t` is older than `ts`
exactly when `t < ts`; the spec fixes only the both-present case, and an unset
mark is treated as older than any timestamp. -/
def is_mark_older (marksTs : Char → Option Int) (name : Char) (ts : Int) : Bool :=
  match marksTs name with
  | some t => decide (t < ts)
  | none => true

/-- Modelled from the spec: `bmark_is_older` lives in bmarks.c, which is not
under src/.  Same newest-wins rule as for marks, keyed by path. -/
def bmark_is_older (bmarksTs : String → Option Int) (path : String) (ts : Int) : Bool :=
  match bmarksTs path with
  | some t => decide (t < ts)
  | none => true

/- ===================== the merge engine ================================ -/

/-- `json_array_get_string` based contents of an optional list section:
a missing array reads as zero entries (`json_array_get_count(NULL) == 0`). -/
def arrContents {α : Type} (o : Option (List α)) : List α :=
  o.getD []

/-- First character of a keyed object's name as the C code reads it
(`name[0]`); the empty name reads its terminating NUL. -/
def strHead (s : String) : Char :=
  s.toList.headD (Char.ofNat 0)

/-- The per-entry test of `merge_dhistory`: the entry has a `dir` string and
`!flist_hist_contains(view, dir) && is_dir(dir)` holds. -/
def dhistNew (contains is_dir : String → Bool) (e : DHistEntry) : Bool :=
  match e.dir with
  | some dir => !contains dir && is_dir dir
  | none => false

/-- `merge_dhistory` (info.c): prepend admixture entries whose directory is not
in the view's in-memory history and still exists on disk ahead of current's
entries; skipped entirely when `cfg.history_len - 1 - view->history_pos` is
zero or the admixture history is empty. -/
def merge_dhistory (historyLen : Int) (view : ViewEnv) (is_dir : String → Bool)
    (cur adm : PTab) : PTab :=
  let history := arrContents cur.history
  let updated := arrContents adm.history
  let extra_space := historyLen - 1 - view.historyPos
  if extra_space = 0 ∨ updated = [] then
    cur
  else
    let merged := updated.filter (dhistNew view.contains is_dir) ++ history
    { cur with history := some merged }

/-- The per-pane body of `merge_tabs`: merge directory histories only when both
sides have exactly one pane tab. -/
def merge_pane (historyLen : Int) (view : ViewEnv) (is_dir : String → Bool)
    (cur adm : Pane) : Pane :=
  match cur.ptabs, adm.ptabs with
  | [ct], [admTab] => { ptabs := [merge_dhistory historyLen view is_dir ct admTab] }
  | _, _ => cur

/-- One iteration of the pane loop of `merge_tabs`: fetch pane `i` on both
sides, skip the index when either is missing, otherwise merge in place. -/
def merge_pane_at (env : MergeEnv) (view : ViewEnv) (i : Nat)
    (panes admPanes : List Pane) : List Pane :=
  match panes.get? i, admPanes.get? i with
  | some cp, some ap => listSet panes i (merge_pane env.historyLen view env.is_dir cp ap)
  | _, _ => panes

/-- The pane loop of `merge_tabs`: panes 0 and 1 map to the left and right
views. -/
def merge_gtab (env : MergeEnv) (cur adm : GTab) : GTab :=
  { cur with panes :=
      (merge_pane_at env env.rwin 1
        (merge_pane_at env env.lwin 0 cur.panes adm.panes) adm.panes) }

/-- `merge_tabs` (info.c): nothing to merge unless directory history is in the
flags; merge only when both documents have exactly one global tab.  The C
function mutates at most the tab array of `current`, which the embedding
renders as an update of the `gtabs` field alone. -/
def merge_tabs (flags : VifmInfo) (env : MergeEnv) (cur adm : Doc) : Doc :=
  { cur with gtabs :=
      (if flags.dhistory = false then cur.gtabs
       else
         match cur.gtabs, adm.gtabs with
         | some [cg], some [ag] => some [merge_gtab env cg ag]
         | _, _ => cur.gtabs) }

/-- The per-entry test of `merge_assocs`: both fields read as strings and
`!ft_assoc_exists(assocs, matchers, cmd)`. -/
def assocNew (exists_fn : String → String → Bool) (e : AssocEntry) : Bool :=
  match e.matchers, e.cmd with
  | some m, some c => !exists_fn m c
  | _, _ => false

/-- `merge_assocs` (info.c): append each admixture entry with `matchers` and
`cmd` whose pair is not already present in the live association list (checked
through `ft_assoc_exists`, an external collaborator). -/
def merge_assocs (exists_fn : String → String → Bool)
    (cur adm : Option (List AssocEntry)) : Option (List AssocEntry) :=
  match cur with
  | none => none
  | some entries =>
    some (entries ++ (arrContents adm).filter (assocNew exists_fn))

/-- `merge_commands` (info.c): add an admixture command only when current has
no entry under that name (writes into a missing `cmds` object are parson
no-ops, hence the `none` case). -/
def merge_commands (cur adm : Option (List (String × String))) :
    Option (List (String × String)) :=
  match cur with
  | none => none
  | some cmds =>
    some ((arrContents adm).foldl (fun acc p =>
      if objHas acc p.1 then acc else objSet acc p.1 p.2) cmds)

/-- The overwrite condition of `merge_marks`:
`get_double(mark, "ts", &ts) && is_mark_older(name[0], ts)`. -/
def markWins (marksTs : Char → Option Int) (p : String × MarkObj) : Bool :=
  match p.2.ts with
  | some ts => is_mark_older marksTs (strHead p.1) ts
  | none => false

/-- `merge_marks` (info.c): overwrite current's mark under a name only when the
admixture entry has a timestamp and the live mark is older than it. -/
def merge_marks (marksTs : Char → Option Int)
    (cur adm : Option (List (String × MarkObj))) : Option (List (String × MarkObj)) :=
  match cur with
  | none => none
  | some marks =>
    some ((arrContents adm).foldl (fun acc p =>
      if markWins marksTs p then objSet acc p.1 p.2 else acc) marks)

/-- The overwrite condition of `merge_bmarks`:
`get_double(bmark, "ts", &ts) && bmark_is_older(path, ts)`. -/
def bmarkWins (bmarksTs : String → Option Int) (p : String × BmarkObj) : Bool :=
  match p.2.ts with
  | some ts => bmark_is_older bmarksTs p.1 ts
  | none => false

/-- `merge_bmarks` (info.c): same newest-wins rule keyed by path. -/
def merge_bmarks (bmarksTs : String → Option Int)
    (cur adm : Option (List (String × BmarkObj))) : Option (List (String × BmarkObj)) :=
  match cur with
  | none => none
  | some bmarks =>
    some ((arrContents adm).foldl (fun acc p =>
      if bmarkWins bmarksTs p then objSet acc p.1 p.2 else acc) bmarks)

/-- `merge_history` (info.c): nothing to do when the admixture list is empty;
otherwise record current's entries in a trie (exact string membership) and
build admixture entries missing from it, in admixture order, followed by all
of current's entries. -/
def merge_history (cur adm : Option (List String)) : Option (List String) :=
  let updated := arrContents adm
  if updated = [] then
    cur
  else
    let entries := arrContents cur
    some (updated.filter (fun e => !entries.contains e) ++ entries)

/-- `merge_regs` (info.c): add the admixture's register only when current has
no entry under that register name. -/
def merge_regs (cur adm : Option (List (String × List String))) :
    Option (List (String × List String)) :=
  match cur with
  | none => none
  | some regs =>
    some ((arrContents adm).foldl (fun acc p =>
      if objHas acc p.1 then acc else objSet acc p.1 p.2) regs)

/-- `merge_dir_stack` (info.c): replace current's stack wholesale by the
admixture's unless the stack changed during this run (a deep copy of a missing
value is NULL and setting it is a parson no-op).  The C function mutates at
most the `dir-stack` key, rendered as an update of that field alone. -/
def merge_dir_stack (changed : Bool) (cur adm : Doc) : Doc :=
  { cur with dirStack :=
      (if !changed then
         match adm.dirStack with
         | some v => some v
         | none => cur.dirStack
       else cur.dirStack) }

/-- The per-entry test of `merge_trash`: both fields read as strings and
`!trash_has_entry(original, trashed)`. -/
def trashNew (hasEntry : String → String → Bool) (e : TrashEntry) : Bool :=
  match e.trashed, e.original with
  | some t, some o => !hasEntry o t
  | _, _ => false

/-- `merge_trash` (info.c): append each admixture pair absent from the live
trash (checked through `trash_has_entry`, an external collaborator). -/
def merge_trash (hasEntry : String → String → Bool)
    (cur adm : Option (List TrashEntry)) : Option (List TrashEntry) :=
  match cur with
  | none => none
  | some trash =>
    some (trash ++ (arrContents adm).filter (trashNew hasEntry))

/-- The `VINFO_FILETYPES` block of `merge_states`. -/
def merge_states_filetypes (flags : VifmInfo) (env : MergeEnv) (adm cur : Doc) : Doc :=
  if flags.filetypes then
    { cur with assocs := merge_assocs env.assocExists cur.assocs adm.assocs,
               xassocs := merge_assocs env.xassocExists cur.xassocs adm.xassocs,
               viewers := merge_assocs env.viewerExists cur.viewers adm.viewers }
  else cur

/-- The `VINFO_COMMANDS` block of `merge_states`. -/
def merge_states_commands (flags : VifmInfo) (adm cur : Doc) : Doc :=
  if flags.commands then { cur with cmds := merge_commands cur.cmds adm.cmds } else cur

/-- The `VINFO_MARKS` block of `merge_states`. -/
def merge_states_marks (flags : VifmInfo) (env : MergeEnv) (adm cur : Doc) : Doc :=
  if flags.marks then { cur with marks := merge_marks env.marksTs cur.marks adm.marks } else cur

/-- The `VINFO_BOOKMARKS` block of `merge_states`. -/
def merge_states_bmarks (flags : VifmInfo) (env : MergeEnv) (adm cur : Doc) : Doc :=
  if flags.bookmarks then
    { cur with bmarks := merge_bmarks env.bmarksTs cur.bmarks adm.bmarks }
  else cur

/-- The `VINFO_CHISTORY` block of `merge_states`. -/
def merge_states_chist (flags : VifmInfo) (adm cur : Doc) : Doc :=
  if flags.chistory then { cur with cmdHist := merge_history cur.cmdHist adm.cmdHist } else cur

/-- The `VINFO_SHISTORY` block of `merge_states`. -/
def merge_states_shist (flags : VifmInfo) (adm cur : Doc) : Doc :=
  if flags.shistory then
    { cur with searchHist := merge_history cur.searchHist adm.searchHist }
  else cur

/-- The `VINFO_PHISTORY` block of `merge_states`. -/
def merge_states_phist (flags : VifmInfo) (adm cur : Doc) : Doc :=
  if flags.phistory then
    { cur with promptHist := merge_history cur.promptHist adm.promptHist }
  else cur

/-- The `VINFO_FHISTORY` block of `merge_states`. -/
def merge_states_fhist (flags : VifmInfo) (adm cur : Doc) : Doc :=
  if flags.fhistory then
    { cur with lfiltHist := merge_history cur.lfiltHist adm.lfiltHist }
  else cur

/-- The `VINFO_REGISTERS` block of `merge_states`. -/
def merge_states_regs (flags : VifmInfo) (adm cur : Doc) : Doc :=
  if flags.registers then { cur with regs := merge_regs cur.regs adm.regs } else cur

/-- The `VINFO_DIRSTACK` block of `merge_states`. -/
def merge_states_dirstack (flags : VifmInfo) (env : MergeEnv) (adm cur : Doc) : Doc :=
  if flags.dirstack then merge_dir_stack env.dirStackChanged cur adm else cur

/-- The unconditional trash block of `merge_states`. -/
def merge_states_trash (env : MergeEnv) (adm cur : Doc) : Doc :=
  { cur with trash := merge_trash env.trashHasEntry cur.trash adm.trash }

/-- `merge_states` (info.c): the per-section merge in source order, each
section gated by its feature flag — except `merge_tabs` (gated internally on
the dhistory bit) and `merge_trash`, which is invoked unconditionally. -/
def merge_states (flags : VifmInfo) (env : MergeEnv) (cur adm : Doc) : Doc :=
  merge_states_trash env adm
    (merge_states_dirstack flags env adm
      (merge_states_regs flags adm
        (merge_states_fhist flags adm
          (merge_states_phist flags adm
            (merge_states_shist flags adm
              (merge_states_chist flags adm
                (merge_states_bmarks flags env adm
                  (merge_states_marks flags env adm
                    (merge_states_commands flags adm
                      (merge_states_filetypes flags env adm
                        (merge_tabs flags env cur adm)))))))))))

/- ===================== live model and the serializer =================== -/

/-- The slice of a live view (`view_t`) captured and applied by info.c.
`history` is the view's directory history as `store_dhistory` walks it after
`flist_hist_save` has flushed the current position (entries `0` through
`history_pos`, each with dir/file/rel_pos).  `optionLines` and `sorting` are
the option lines and the sort string that the external option/sort renderers
(`store_view_options`, `make_sort_info`) produce for the view. -/
structure ViewSt : Type where
  invert : Bool
  hideDot : Bool
  prevManual : String
  manualExpr : String
  autoRaw : String
  history : List (String × String × Int)
  optionLines : List String
  sorting : String
deriving DecidableEq

/-- The rest of the live model that `serialize_state` reads: rendered trash
pairs, rendered global option lines, rendered association entries (matchers
and command after comma doubling), user commands, marks, bookmarks, the four
history lists as items `0..pos` (empty when `pos < 0`), registers, the
directory stack, and the scalar settings. -/
structure LiveModel : Type where
  lwin : ViewSt
  rwin : ViewSt
  activeIsLeft : Bool
  previewOn : Bool
  splitterPos : Int
  splitIsVertical : Bool
  oneWindow : Bool
  trashList : List (String × String)
  optionLines : List String
  assocRecs : List (String × String)
  xassocRecs : List (String × String)
  viewerRecs : List (String × String)
  cmds : List (String × String)
  marks : List (String × String × String × Int)
  bmarks : List (String × String × Int)
  cmdHist : List String
  searchHist : List String
  promptHist : List String
  filterHist : List String
  regs : List (String × List String)
  dirStack : List (String × String × String × String)
  useTermMux : Bool
  csName : String
deriving DecidableEq

/-- `store_filters` (info.c): emit `invert`, `dot`, `manual` and `auto` from
the view. -/
def store_filters (v : ViewSt) : FiltersObj :=
  { invert := some v.invert, dot := some v.hideDot,
    manual := some v.manualExpr, auto := some v.autoRaw }

/-- `store_dhistory` (info.c): the history array (dir/file/relpos per entry,
oldest first) plus the `restore-last-location` marker reflecting the savedirs
bit. -/
def store_dhistory (v : ViewSt) : List DHistEntry :=
  v.history.map (fun e => { dir := some e.1, file := some e.2.1, relpos := some e.2.2 })

/-- `store_view` (info.c): one pane tab; history requires the dhistory bit and
a positive history length, filters the state bit, options the options bit and
the sort string the TUI bit. -/
def store_view (flags : VifmInfo) (historyLen : Int) (v : ViewSt) : PTab :=
  { history :=
      if flags.dhistory ∧ historyLen > 0 then some (store_dhistory v) else none,
    restoreLastLocation :=
      if flags.dhistory ∧ historyLen > 0 then some flags.savedirs else none,
    filters := if flags.state then some (store_filters v) else none,
    options := if flags.options then some v.optionLines else none,
    sorting := if flags.tui then some v.sorting else none }

/-- `store_gtab` (info.c): both panes always (one pane tab each); active pane,
preview and the splitter only under the TUI bit. -/
def store_gtab (flags : VifmInfo) (historyLen : Int) (m : LiveModel) : GTab :=
  { panes := [{ ptabs := [store_view flags historyLen m.lwin] },
              { ptabs := [store_view flags historyLen m.rwin] }],
    activePane := if flags.tui then some (if m.activeIsLeft then 0 else 1) else none,
    preview := if flags.tui then some m.previewOn else none,
    splitter :=
      if flags.tui then
        some { pos := some m.splitterPos,
               orientation := some (if m.splitIsVertical then "v" else "h"),
               expanded := some m.oneWindow }
      else none }

/-- `store_history` (info.c): no section at all when `hist->pos < 0` (the
history is empty); otherwise the items from `pos` down to `0`, i.e. newest
first on disk. -/
def store_history (items : List String) : Option (List String) :=
  if items = [] then none else some items.reverse

/-- `store_trash` (info.c): the trashed/original pairs, emitted only when the
live trash list is non-empty — and, unlike every other data section, not
gated by any `vifm_info` flag in `serialize_state`. -/
def store_trash (trashList : List (String × String)) : Option (List TrashEntry) :=
  if trashList = [] then none
  else some (trashList.map (fun p => { trashed := some p.1, original := some p.2 }))

/-- `serialize_state` (info.c): capture the live model into a document,
section by section, each gated by its feature-flag bit — except the global
tab scaffolding and the trash section, which are emitted unconditionally. -/
def serialize_state (flags : VifmInfo) (historyLen : Int) (m : LiveModel) : Doc :=
  { gtabs := some [store_gtab flags historyLen m],
    trash := store_trash m.trashList,
    options := if flags.options then some m.optionLines else none,
    assocs :=
      if flags.filetypes then
        some (m.assocRecs.map (fun p => { matchers := some p.1, cmd := some p.2 }))
      else none,
    xassocs :=
      if flags.filetypes then
        some (m.xassocRecs.map (fun p => { matchers := some p.1, cmd := some p.2 }))
      else none,
    viewers :=
      if flags.filetypes then
        some (m.viewerRecs.map (fun p => { matchers := some p.1, cmd := some p.2 }))
      else none,
    cmds := if flags.commands then some m.cmds else none,
    marks :=
      if flags.marks then
        some (m.marks.map (fun p => (p.1, { dir := some p.2.1, file := some p.2.2.1,
                                            ts := some p.2.2.2 })))
      else none,
    bmarks :=
      if flags.bookmarks then
        some (m.bmarks.map (fun p => (p.1, { tags := some p.2.1, ts := some p.2.2 })))
      else none,
    cmdHist := if flags.chistory then store_history m.cmdHist else none,
    searchHist := if flags.shistory then store_history m.searchHist else none,
    promptHist := if flags.phistory then store_history m.promptHist else none,
    lfiltHist := if flags.fhistory then store_history m.filterHist else none,
    regs := if flags.registers then some m.regs else none,
    dirStack :=
      if flags.dirstack then
        some (m.dirStack.map (fun p => { leftDir := some p.1, leftFile := some p.2.1,
                                         rightDir := some p.2.2.1, rightFile := some p.2.2.2 }))
      else none,
    useTermMultiplexer := if flags.state then some m.useTermMux else none,
    colorScheme := if flags.cs then some m.csName else none }

/- ===================== the loader: filters ============================= -/

/-- Validity oracles for the matcher/filter expression compilers
(`matcher_alloc` of utils/matcher.c and `filter_set` of utils/filter.c, both
external collaborators): whether compiling the expression succeeds. -/
structure FilterEnv : Type where
  matcherOk : String → Bool
  filterOk : String → Bool

/-- Modelled from the spec: `dot_filter_set` lives in filtering.c, which is
not under src/.  It receives whether dotfiles are visible, so the view's
hide-dot setting becomes the negation of its argument (the serializer stores
`dot = view->hide_dot`, and the loader calls `dot_filter_set(view, !dot)`). -/
def dot_filter_set (v : ViewSt) (visible : Bool) : ViewSt :=
  { v with hideDot := !visible }

/-- `set_manual_filter` (info.c): remember the value as the previous manual
filter and compile it; if compiling fails fall back to the empty expression
for both. -/
def set_manual_filter (env : FilterEnv) (v : ViewSt) (value : String) : ViewSt :=
  if env.matcherOk value then { v with prevManual := value, manualExpr := value }
  else { v with prevManual := "", manualExpr := "" }

/-- `load_filters` (info.c): nothing without a `filters` object; otherwise the
view's invert flag is read from the `invert` key, the dot filter is set from a
second read of the same `invert` key (negated), and the manual and auto
expressions are applied. -/
def load_filters (env : FilterEnv) (filters : Option FiltersObj) (v : ViewSt) : ViewSt :=
  match filters with
  | none => v
  | some f =>
    let v := match f.invert with | some b => { v with invert := b } | none => v
    let v := match f.invert with | some b => dot_filter_set v (!b) | none => v
    let v := match f.manual with | some s => set_manual_filter env v s | none => v
    let v :=
      match f.auto with
      | some s => if env.filterOk s then { v with autoRaw := s } else v
      | none => v
    v

/- ===================== the loader: flat histories ====================== -/

/-- The four flat history kinds loaded by `load_state`. -/
inductive HistKind : Type where
  | cmd : HistKind
  | search : HistKind
  | prompt : HistKind
  | filter : HistKind
deriving DecidableEq

/-- The state `load_history` mutates: the four history lists of
`curr_stats` (each newest-first, so `hist->pos + 1` is the list length) and
the shared capacity `cfg.history_len`. -/
structure HistsState : Type where
  cmdItems : List String
  searchItems : List String
  promptItems : List String
  filterItems : List String
  historyLen : Int
deriving DecidableEq

/-- Items of one history kind. -/
def kindItems (st : HistsState) : HistKind → List String
  | HistKind.cmd => st.cmdItems
  | HistKind.search => st.searchItems
  | HistKind.prompt => st.promptItems
  | HistKind.filter => st.filterItems

/-- Replace the items of one history kind. -/
def setKindItems (st : HistsState) : HistKind → List String → HistsState
  | HistKind.cmd, l => { st with cmdItems := l }
  | HistKind.search, l => { st with searchItems := l }
  | HistKind.prompt, l => { st with promptItems := l }
  | HistKind.filter, l => { st with filterItems := l }

/-- `hist->pos` of a history list: index of the newest item, `-1` when empty. -/
def histPos (items : List String) : Int :=
  (items.length : Int) - 1

/-- `ensure_history_not_full` (info.c): when the checked history's `pos + 1`
equals `cfg.history_len`, grow every history's capacity by one
(`cfg_resize_histories(cfg.history_len + 1)`). -/
def ensure_history_not_full (checkedItems : List String) (st : HistsState) : HistsState :=
  if histPos checkedItems + 1 = st.historyLen then
    { st with historyLen := st.historyLen + 1 }
  else st

/-- Modelled from the spec: the history saver callbacks
(`hists_commands_save` and friends, ending in `hist_add` of utils/hist.c, not
under src/) append an item to their history list as a plain ring buffer —
newest first, and at capacity the oldest entry is silently dropped (which the
spec contrasts with the intended grow-on-demand behaviour). -/
def hist_saver (kind : HistKind) (st : HistsState) (item : String) : HistsState :=
  let items := item :: kindItems st kind
  let items := if (items.length : Int) > st.historyLen then items.take st.historyLen.toNat
               else items
  setKindItems st kind items

/-- `append_to_history` (info.c): make room in the checked history, then let
the saver append the item. -/
def append_to_history (checked : HistKind) (kind : HistKind) (st : HistsState)
    (item : String) : HistsState :=
  let st := ensure_history_not_full (kindItems st checked) st
  hist_saver kind st item

/-- `load_history` (info.c): append every entry of the document's list — the
capacity check inside `append_to_history` is made against
`&curr_stats.filter_hist` for every kind, the function's own `hist` parameter
being ignored. -/
def load_history (kind : HistKind) (st : HistsState) (entries : List String) : HistsState :=
  entries.foldl (fun st item => append_to_history HistKind.filter kind st item) st

/- ===================== the loader: sort specification ================== -/

/-- Whitespace as C `strtol` skips it. -/
def isSpaceCh (c : Char) : Bool :=
  c = ' ' || c = '\t' || c = '\n' || c = '\x0b' || c = '\x0c' || c = '\r'

/-- Numeric value of a digit run. -/
def digitsVal (ds : List Char) : Int :=
  ds.foldl (fun a c => a * 10 + ((c.toNat : Int) - 48)) 0

/-- C `strtol(line, &endptr, 10)`: skip whitespace, an optional sign, then
digits; `none` when no conversion was performed (`endptr == line`), otherwise
the value and the rest of the string after the digits. -/
def strtol10 (s : List Char) : Option (Int × List Char) :=
  let s1 := s.dropWhile isSpaceCh
  match s1 with
  | '-' :: rest =>
    if rest.takeWhile Char.isDigit = [] then none
    else some (-(digitsVal (rest.takeWhile Char.isDigit)), rest.dropWhile Char.isDigit)
  | '+' :: rest =>
    if rest.takeWhile Char.isDigit = [] then none
    else some (digitsVal (rest.takeWhile Char.isDigit), rest.dropWhile Char.isDigit)
  | _ =>
    if s1.takeWhile Char.isDigit = [] then none
    else some (digitsVal (s1.takeWhile Char.isDigit), s1.dropWhile Char.isDigit)

/-- Modelled from the spec: `skip_char` lives in utils/str.c, which is not
under src/; the separators between the comma-separated sort tokens are
consumed by skipping consecutive occurrences of the character. -/
def skip_char (s : List Char) (c : Char) : List Char :=
  s.dropWhile (fun x => x = c)

/-- `MIN(SK_LAST, MAX(-SK_LAST, sort_opt))`. -/
def clampSort (skLast v : Int) : Int :=
  min skLast (max (-skLast) v)

/-- The `while` loop of `get_sort_info` (info.c): while the line is not
exhausted and fewer than `SK_COUNT` fields are filled, try `strtol`; a parsed
value is clamped and stored, an unparseable position advances the line by one
character, and separators are skipped either way.  The fuel is the line
length, which bounds the iteration count since every round consumes at least
one character. -/
def get_sort_info_loop (skCount : Nat) (skLast : Int) :
    Nat → List Char → Nat → List Int → List Int
  | 0, _, _, acc => acc.reverse
  | fuel + 1, line, j, acc =>
    if line = [] ∨ skCount ≤ j then acc.reverse
    else
      match strtol10 line with
      | some (v, rest) =>
        get_sort_info_loop skCount skLast fuel (skip_char rest ',') (j + 1)
          (clampSort skLast v :: acc)
      | none =>
        get_sort_info_loop skCount skLast fuel (skip_char (line.drop 1) ',') j acc

/-- `get_sort_info` (info.c), as the resulting `sort_g` array of `SK_COUNT`
slots: the parsed prefix, the unfilled tail `memset` to `SK_NONE`, and
`SK_DEFAULT` in the first slot when zero fields were parsed. -/
def get_sort_info (skCount : Nat) (skLast skNone skDefault : Int) (line : List Char) :
    List Int :=
  let parsed := get_sort_info_loop skCount skLast line.length line 0 []
  if parsed = [] then skDefault :: List.replicate (skCount - 1) skNone
  else parsed ++ List.replicate (skCount - parsed.length) skNone

/-- The sort parser as the claim words it: identical to `get_sort_info`
except that parsing stops at the first unparseable token instead of skipping
a character and continuing. -/
def get_sort_info_claim_loop (skCount : Nat) (skLast : Int) :
    Nat → List Char → Nat → List Int → List Int
  | 0, _, _, acc => acc.reverse
  | fuel + 1, line, j, acc =>
    if line = [] ∨ skCount ≤ j then acc.reverse
    else
      match strtol10 line with
      | some (v, rest) =>
        get_sort_info_claim_loop skCount skLast fuel (skip_char rest ',') (j + 1)
          (clampSort skLast v :: acc)
      | none => acc.reverse

/-- The whole claim-worded sort parser built on the stopping loop. -/
def get_sort_info_claim (skCount : Nat) (skLast skNone skDefault : Int) (line : List Char) :
    List Int :=
  let parsed := get_sort_info_claim_loop skCount skLast line.length line 0 []
  if parsed = [] then skDefault :: List.replicate (skCount - 1) skNone
  else parsed ++ List.replicate (skCount - parsed.length) skNone

/- ===================== the legacy reader: register records ============= -/

/-- The C string terminator. -/
def nulChar : Char := Char.ofNat 0

/-- C `strchr(s, c) != NULL`: the terminating NUL character counts as part of
the searched string, so searching for NUL always succeeds. -/
def strchr_hits (s : List Char) (c : Char) : Bool :=
  c = nulChar || s.contains c

/-- A char buffer read as a C string: everything before the first NUL. -/
def cstr (l : List Char) : List Char :=
  l.takeWhile (fun c => c != nulChar)

/-- The `LINE_TYPE_REG` branch of `read_legacy_info_file` (info.c):
`line_val[0]` is the first character of the record value — for an empty value
it is the terminating NUL; the membership test is `strchr(valid_registers,
line_val[0])`; on success an entry keyed by the C string `{line_val[0], '\0'}`
receives `line_val + 1` (for the empty value that read starts past the
terminator, modelled here as the empty remainder). -/
def legacy_reg_record (valid_registers : List Char) (line_val : List Char)
    (regs : List (String × List String)) : List (String × List String) :=
  let c := line_val.headD nulChar
  if strchr_hits valid_registers c then
    let name := String.mk (cstr [c])
    let files := (objLookup regs name).getD []
    objSet regs name (files ++ [String.mk (line_val.drop 1)])
  else regs

/- ===================== flag-gated section observations ================= -/

/-- The flag-gated document sections of the schema (trash deliberately has no
entry here: `serialize_state`/`merge_states` handle it outside any flag). -/
inductive InfoSection : Type where
  | options : InfoSection
  | filetypes : InfoSection
  | commands : InfoSection
  | marks : InfoSection
  | bookmarks : InfoSection
  | chistory : InfoSection
  | shistory : InfoSection
  | phistory : InfoSection
  | fhistory : InfoSection
  | registers : InfoSection
  | dirstack : InfoSection
  | dhistory : InfoSection
  | tui : InfoSection
  | state : InfoSection
  | cs : InfoSection
deriving DecidableEq

/-- The `VINFO_*` bit gating a section. -/
def sectionFlag (flags : VifmInfo) : InfoSection → Bool
  | InfoSection.options => flags.options
  | InfoSection.filetypes => flags.filetypes
  | InfoSection.commands => flags.commands
  | InfoSection.marks => flags.marks
  | InfoSection.bookmarks => flags.bookmarks
  | InfoSection.chistory => flags.chistory
  | InfoSection.shistory => flags.shistory
  | InfoSection.phistory => flags.phistory
  | InfoSection.fhistory => flags.fhistory
  | InfoSection.registers => flags.registers
  | InfoSection.dirstack => flags.dirstack
  | InfoSection.dhistory => flags.dhistory
  | InfoSection.tui => flags.tui
  | InfoSection.state => flags.state
  | InfoSection.cs => flags.cs

/-- The parts of a pane tab other than its directory history (what every merge
operation leaves alone inside the tab structure). -/
def ptabSkel (t : PTab) :
    Option FiltersObj × Option (List String) × Option Bool × Option String :=
  (t.filters, t.options, t.restoreLastLocation, t.sorting)

/-- The parts of a global tab other than the directory histories. -/
def gtabSkel (g : GTab) :
    (Option Splitter × Option Int × Option Bool)
      × List (List (Option FiltersObj × Option (List String) × Option Bool × Option String)) :=
  ((g.splitter, g.activePane, g.preview), g.panes.map (fun p => p.ptabs.map ptabSkel))

/-- All non-history content of the tab structure of a document. -/
def docGtabSkel (d : Doc) :
    Option (List ((Option Splitter × Option Int × Option Bool)
      × List (List (Option FiltersObj × Option (List String) × Option Bool × Option String)))) :=
  d.gtabs.map (fun l => l.map gtabSkel)

/-- A section is fully absent from a document (the serializer's omission per
unset flag, down to the per-pane pieces living inside the tab structure). -/
def sectionAbsent (d : Doc) : InfoSection → Prop
  | InfoSection.options =>
    d.options = none ∧
      ∀ g ∈ arrContents d.gtabs, ∀ p ∈ g.panes, ∀ t ∈ p.ptabs, t.options = none
  | InfoSection.filetypes => d.assocs = none ∧ d.xassocs = none ∧ d.viewers = none
  | InfoSection.commands => d.cmds = none
  | InfoSection.marks => d.marks = none
  | InfoSection.bookmarks => d.bmarks = none
  | InfoSection.chistory => d.cmdHist = none
  | InfoSection.shistory => d.searchHist = none
  | InfoSection.phistory => d.promptHist = none
  | InfoSection.fhistory => d.lfiltHist = none
  | InfoSection.registers => d.regs = none
  | InfoSection.dirstack => d.dirStack = none
  | InfoSection.dhistory =>
    ∀ g ∈ arrContents d.gtabs, ∀ p ∈ g.panes, ∀ t ∈ p.ptabs,
      t.history = none ∧ t.restoreLastLocation = none
  | InfoSection.tui =>
    (∀ g ∈ arrContents d.gtabs, g.splitter = none ∧ g.activePane = none ∧ g.preview = none)
      ∧ ∀ g ∈ arrContents d.gtabs, ∀ p ∈ g.panes, ∀ t ∈ p.ptabs, t.sorting = none
  | InfoSection.state =>
    d.useTermMultiplexer = none ∧
      ∀ g ∈ arrContents d.gtabs, ∀ p ∈ g.panes, ∀ t ∈ p.ptabs, t.filters = none
  | InfoSection.cs => d.colorScheme = none

/-- A section of the merge result is untouched relative to `cur` (for the
pieces living inside the tab structure this is phrased through the
history-free skeleton, which the merge engine can only preserve). -/
def sectionUnchanged (cur res : Doc) : InfoSection → Prop
  | InfoSection.options => res.options = cur.options ∧ docGtabSkel res = docGtabSkel cur
  | InfoSection.filetypes =>
    res.assocs = cur.assocs ∧ res.xassocs = cur.xassocs ∧ res.viewers = cur.viewers
  | InfoSection.commands => res.cmds = cur.cmds
  | InfoSection.marks => res.marks = cur.marks
  | InfoSection.bookmarks => res.bmarks = cur.bmarks
  | InfoSection.chistory => res.cmdHist = cur.cmdHist
  | InfoSection.shistory => res.searchHist = cur.searchHist
  | InfoSection.phistory => res.promptHist = cur.promptHist
  | InfoSection.fhistory => res.lfiltHist = cur.lfiltHist
  | InfoSection.registers => res.regs = cur.regs
  | InfoSection.dirstack => res.dirStack = cur.dirStack
  | InfoSection.dhistory => res.gtabs = cur.gtabs
  | InfoSection.tui => docGtabSkel res = docGtabSkel cur
  | InfoSection.state =>
    res.useTermMultiplexer = cur.useTermMultiplexer ∧ docGtabSkel res = docGtabSkel cur
  | InfoSection.cs => res.colorScheme = cur.colorScheme

/- ===================== concrete sample instances ======================= -/

/-- The empty document. -/
def docEmpty : Doc :=
  { gtabs := none, trash := none, options := none, assocs := none, xassocs := none,
    viewers := none, cmds := none, marks := none, bmarks := none, cmdHist := none,
    searchHist := none, promptHist := none, lfiltHist := none, regs := none,
    dirStack := none, useTermMultiplexer := none, colorScheme := none }

/-- All feature-flag bits clear. -/
def flagsNone : VifmInfo :=
  { options := false, filetypes := false, commands := false, marks := false,
    bookmarks := false, tui := false, dhistory := false, state := false, cs := false,
    savedirs := false, chistory := false, shistory := false, phistory := false,
    fhistory := false, dirstack := false, registers := false }

/-- All feature-flag bits set. -/
def flagsAll : VifmInfo :=
  { options := true, filetypes := true, commands := true, marks := true,
    bookmarks := true, tui := true, dhistory := true, state := true, cs := true,
    savedirs := true, chistory := true, shistory := true, phistory := true,
    fhistory := true, dirstack := true, registers := true }

/-- A sample live view. -/
def view0 : ViewSt :=
  { invert := true, hideDot := false, prevManual := "", manualExpr := "",
    autoRaw := "", history := [("/d1", "f1", 0)], optionLines := ["o1"],
    sorting := "1" }

/-- A sample live model with one trash entry. -/
def m0 : LiveModel :=
  { lwin := view0, rwin := view0, activeIsLeft := true, previewOn := false,
    splitterPos := -1, splitIsVertical := true, oneWindow := false,
    trashList := [("/trash/0_f", "/f")], optionLines := ["g1"],
    assocRecs := [("m", "c")], xassocRecs := [], viewerRecs := [],
    cmds := [("foo", "echo 1")], marks := [("h", "/d", "f", 100)],
    bmarks := [("/p", "tag", 50)], cmdHist := ["a"], searchHist := [],
    promptHist := [], filterHist := ["x"], regs := [("a", ["/f"])],
    dirStack := [], useTermMux := true, csName := "default" }

/-- A sample merge environment: capacity two, both views at position zero
with empty membership, everything existing on disk and absent from the live
stores. -/
def envBase : MergeEnv :=
  { historyLen := 2,
    lwin := { historyPos := 0, contains := fun _ => false },
    rwin := { historyPos := 0, contains := fun _ => false },
    is_dir := fun _ => true,
    assocExists := fun _ _ => false, xassocExists := fun _ _ => false,
    viewerExists := fun _ _ => false,
    marksTs := fun _ => none, bmarksTs := fun _ => none,
    trashHasEntry := fun _ _ => false, dirStackChanged := false }

/-- Current document with an empty trash section. -/
def curTrash0 : Doc := { docEmpty with trash := some [] }

/-- Admixture document with one trash entry. -/
def admTrash0 : Doc :=
  { docEmpty with trash := some [{ trashed := some "/trash/0_g", original := some "/g" }] }

/-- Directory-history entries for the capacity counterexample. -/
def dh1 : DHistEntry := { dir := some "/dir1", file := some "f1", relpos := some 0 }

/-- Second directory-history entry for the capacity counterexample. -/
def dh2 : DHistEntry := { dir := some "/dir2", file := some "f2", relpos := some 0 }

/-- An empty pane tab. -/
def ptabEmpty : PTab :=
  { history := none, filters := none, options := none,
    restoreLastLocation := none, sorting := none }

/-- A single-pane-tab global tab around a given left pane tab. -/
def gtabOf (pt : PTab) : GTab :=
  { panes := [{ ptabs := [pt] }, { ptabs := [ptabEmpty] }],
    splitter := none, activePane := none, preview := none }

/-- Current document for the capacity counterexample: empty history. -/
def docC3cur : Doc := { docEmpty with gtabs := some [gtabOf { ptabEmpty with history := some [] }] }

/-- Admixture document for the capacity counterexample: two new entries. -/
def docC3adm : Doc := { docEmpty with gtabs := some [gtabOf { ptabEmpty with history := some [dh1, dh2] }] }

/-- Flags with only the dhistory bit set. -/
def flagsDhist : VifmInfo := { flagsNone with dhistory := true }

/-- The history list of the first pane tab of the first pane of the first
global tab of a document. -/
def firstPTabHistory (d : Doc) : List DHistEntry :=
  match d.gtabs with
  | some (g :: _) =>
    match g.panes with
    | p :: _ =>
      match p.ptabs with
      | t :: _ => arrContents t.history
      | [] => []
    | [] => []
  | _ => []

/-- Mark object with all fields. -/
def markOf (d f : String) (ts : Int) : MarkObj :=
  { dir := some d, file := some f, ts := some ts }

/-- Bookmark object with all fields. -/
def bmarkOf (tags : String) (ts : Int) : BmarkObj :=
  { tags := some tags, ts := some ts }

/-- The merge environment used to witness the self-merge theorem: every
membership oracle says "already known", matching the self-merge document. -/
def envSelf : MergeEnv :=
  { historyLen := 5,
    lwin := { historyPos := 0, contains := fun _ => true },
    rwin := { historyPos := 0, contains := fun _ => true },
    is_dir := fun _ => true,
    assocExists := fun _ _ => true, xassocExists := fun _ _ => true,
    viewerExists := fun _ _ => true,
    marksTs := fun _ => some 100, bmarksTs := fun _ => some 50,
    trashHasEntry := fun _ _ => true, dirStackChanged := false }

/-- The document used to witness the self-merge theorem. -/
def docD0 : Doc :=
  { gtabs := some [{ panes := [{ ptabs := [{ ptabEmpty with history := some [dh1] }] },
                               { ptabs := [{ ptabEmpty with history := some [] }] }],
                     splitter := none, activePane := some 0, preview := some false }],
    trash := some [{ trashed := some "/trash/0_f", original := some "/f" }],
    options := some ["g1"],
    assocs := some [{ matchers := some "m", cmd := some "c" }],
    xassocs := some [], viewers := some [],
    cmds := some [("foo", "echo 1")],
    marks := some [("h", markOf "/d" "f" 100)],
    bmarks := some [("/p", bmarkOf "tag" 50)],
    cmdHist := some ["a"], searchHist := some [], promptHist := none,
    lfiltHist := some ["x", "y"],
    regs := some [("a", ["/f"])], dirStack := some [],
    useTermMultiplexer := some true, colorScheme := some "default" }

/-- History state for the capacity bug: the command history is full (two items
with capacity two), the filter history is empty. -/
def histStC7 : HistsState :=
  { cmdItems := ["b", "a"], searchItems := [], promptItems := [],
    filterItems := [], historyLen := 2 }

/- ===================== helper lemmas =================================== -/

theorem objLookup_objSet_self {α : Type} (l : List (String × α)) (k : String) (v : α) :
    objLookup (objSet l k v) k = some v := by
  induction l with
  | nil => simp [objSet, objLookup]
  | cons p rest ih =>
    obtain ⟨k', v'⟩ := p
    by_cases h : k' = k
    · simp [objSet, h, objLookup]
    · simp [objSet, h, objLookup, ih]

theorem objLookup_objSet_ne {α : Type} (l : List (String × α)) (k kx : String) (v : α)
    (h : kx ≠ k) : objLookup (objSet l kx v) k = objLookup l k := by
  induction l with
  | nil => simp [objSet, objLookup, h]
  | cons p rest ih =>
    obtain ⟨k', v'⟩ := p
    by_cases h2 : k' = kx
    · subst h2
      simp [objSet, objLookup, h, Ne.symm h]
    · simp only [objSet, if_neg h2]
      by_cases h3 : k' = k
      · subst h3
        simp [objLookup]
      · simp [objLookup, h3, ih]

theorem objSet_self {α : Type} (l : List (String × α)) (k : String) (v : α)
    (h : objLookup l k = some v) : objSet l k v = l := by
  induction l with
  | nil => simp [objLookup] at h
  | cons p rest ih =>
    obtain ⟨k', v'⟩ := p
    by_cases h2 : k' = k
    · simp [objLookup, h2] at h
      simp [objSet, h2, h]
    · simp [objLookup, h2] at h
      simp [objSet, h2, ih h]

theorem objLookup_of_keysUnique {α : Type} (l : List (String × α)) (k : String) (v : α)
    (hu : keysUnique l) (hm : (k, v) ∈ l) : objLookup l k = some v := by
  induction l with
  | nil => cases hm
  | cons p rest ih =>
    obtain ⟨k', v'⟩ := p
    simp only [keysUnique, List.map_cons, List.nodup_cons] at hu
    rcases List.mem_cons.mp hm with h | h
    · obtain ⟨h1, h2⟩ := Prod.mk.injEq .. ▸ h
      simp [objLookup, h1.symm, h2]
    · have hk : k' ≠ k := by
        intro he
        exact hu.1 (he ▸ (List.mem_map.mpr ⟨(k, v), h, rfl⟩))
      simp only [objLookup, if_neg hk]
      exact ih hu.2 h

theorem foldl_fix {α β : Type} (step : β → α → β) (init : β) (l : List α)
    (h : ∀ a ∈ l, step init a = init) : l.foldl step init = init := by
  induction l with
  | nil => rfl
  | cons a rest ih =>
    have := h a (List.mem_cons_self a rest)
    simp only [List.foldl_cons, this]
    exact ih (fun b hb => h b (List.mem_cons_of_mem a hb))

theorem listSet_get_self {α : Type} (l : List α) (i : Nat) (x : α)
    (h : l.get? i = some x) : listSet l i x = l := by
  induction l generalizing i with
  | nil => simp [listSet]
  | cons a rest ih =>
    cases i with
    | zero =>
      have hx : a = x := by
        have : some a = some x := h
        exact Option.some.inj this
      simp [listSet, hx]
    | succ n =>
      have hr : rest.get? n = some x := h
      simp [listSet, ih n hr]

theorem map_listSet {α β : Type} (f : α → β) (l : List α) (i : Nat) (x : α) :
    (listSet l i x).map f = listSet (l.map f) i (f x) := by
  induction l generalizing i with
  | nil => simp [listSet]
  | cons a rest ih =>
    cases i with
    | zero => simp [listSet]
    | succ n => simp [listSet, ih n]

theorem objHas_of_mem {α : Type} (l : List (String × α)) (p : String × α)
    (h : p ∈ l) : objHas l p.1 = true := by
  induction l with
  | nil => cases h
  | cons q rest ih =>
    obtain ⟨k', v'⟩ := q
    by_cases h2 : k' = p.1
    · simp [objHas, objLookup, h2]
    · rcases List.mem_cons.mp h with h3 | h3
      · exact absurd (congrArg Prod.fst h3.symm) h2
      · simpa [objHas, objLookup, h2] using ih h3

theorem foldl_condSet_no_key {α : Type} (c : String × α → Bool)
    (cur : List (String × α)) (l : List (String × α)) (k : String)
    (h : ∀ p ∈ l, p.1 ≠ k) :
    objLookup (l.foldl (fun acc p => if c p then objSet acc p.1 p.2 else acc) cur) k
      = objLookup cur k := by
  induction l generalizing cur with
  | nil => rfl
  | cons p rest ih =>
    have hp : p.1 ≠ k := h p (List.mem_cons_self p rest)
    have hrest : ∀ q ∈ rest, q.1 ≠ k := fun q hq => h q (List.mem_cons_of_mem p hq)
    simp only [List.foldl_cons]
    by_cases hc : c p = true
    · rw [if_pos hc, ih _ hrest, objLookup_objSet_ne _ _ _ _ hp]
    · rw [if_neg hc, ih _ hrest]

theorem foldl_condSet_key {α : Type} (c : String × α → Bool)
    (cur l₁ l₂ : List (String × α)) (k : String) (m : α)
    (h₁ : ∀ p ∈ l₁, p.1 ≠ k) (h₂ : ∀ p ∈ l₂, p.1 ≠ k) :
    objLookup ((l₁ ++ (k, m) :: l₂).foldl
        (fun acc p => if c p then objSet acc p.1 p.2 else acc) cur) k
      = if c (k, m) then some m else objLookup cur k := by
  rw [List.foldl_append]
  simp only [List.foldl_cons]
  by_cases hc : c (k, m) = true
  · rw [if_pos hc, if_pos hc, foldl_condSet_no_key c _ l₂ k h₂, objLookup_objSet_self]
  · rw [if_neg hc, if_neg hc, foldl_condSet_no_key c _ l₂ k h₂,
      foldl_condSet_no_key c _ l₁ k h₁]

theorem filter_self_not_contains (l : List String) :
    l.filter (fun e => !l.contains e) = [] := by
  rw [List.filter_eq_nil_iff]
  intro a ha
  simp [List.contains, List.elem_iff, ha]

theorem merge_dhistory_eq_or (len : Int) (view : ViewEnv) (isDir : String → Bool)
    (cur adm : PTab) :
    merge_dhistory len view isDir cur adm = cur ∨
      ∃ l, merge_dhistory len view isDir cur adm = { cur with history := some l } := by
  simp only [merge_dhistory]
  by_cases h : len - 1 - view.historyPos = 0 ∨ arrContents adm.history = []
  · exact Or.inl (if_pos h)
  · exact Or.inr ⟨_, if_neg h⟩

theorem ptabSkel_merge_dhistory (len : Int) (view : ViewEnv) (isDir : String → Bool)
    (cur adm : PTab) :
    ptabSkel (merge_dhistory len view isDir cur adm) = ptabSkel cur := by
  rcases merge_dhistory_eq_or len view isDir cur adm with h | ⟨l, h⟩ <;>
    rw [h] <;> rfl

theorem merge_pane_skel (len : Int) (view : ViewEnv) (isDir : String → Bool)
    (cur adm : Pane) :
    (merge_pane len view isDir cur adm).ptabs.map ptabSkel = cur.ptabs.map ptabSkel := by
  unfold merge_pane
  split
  · next ct admTab hc _ =>
    rw [hc]
    simp [ptabSkel_merge_dhistory]
  · rfl

theorem pane_step_skel (len : Int) (view : ViewEnv) (isDir : String → Bool)
    (panes : List Pane) (i : Nat) (cp ap : Pane) (h : panes.get? i = some cp) :
    (listSet panes i (merge_pane len view isDir cp ap)).map (fun p => p.ptabs.map ptabSkel)
      = panes.map (fun p => p.ptabs.map ptabSkel) := by
  rw [map_listSet]
  have hval : List.map ptabSkel (merge_pane len view isDir cp ap).ptabs
      = List.map ptabSkel cp.ptabs := merge_pane_skel len view isDir cp ap
  rw [hval]
  apply listSet_get_self
  rw [List.get?_map, h]
  rfl

theorem merge_pane_at_skel (env : MergeEnv) (view : ViewEnv) (i : Nat)
    (panes admPanes : List Pane) :
    (merge_pane_at env view i panes admPanes).map (fun p => p.ptabs.map ptabSkel)
      = panes.map (fun p => p.ptabs.map ptabSkel) := by
  unfold merge_pane_at
  split
  · next cp ap h ha => exact pane_step_skel env.historyLen view env.is_dir panes i cp ap h
  · rfl

theorem gtabSkel_merge_gtab (env : MergeEnv) (cg ag : GTab) :
    gtabSkel (merge_gtab env cg ag) = gtabSkel cg := by
  simp only [merge_gtab, gtabSkel]
  rw [merge_pane_at_skel, merge_pane_at_skel]

theorem merge_tabs_gtabs_cases (flags : VifmInfo) (env : MergeEnv) (cur adm : Doc) :
    (merge_tabs flags env cur adm).gtabs = cur.gtabs ∨
      ∃ cg ag, cur.gtabs = some [cg] ∧ adm.gtabs = some [ag] ∧
        (merge_tabs flags env cur adm).gtabs = some [merge_gtab env cg ag] := by
  have hE : (merge_tabs flags env cur adm).gtabs
      = (if flags.dhistory = false then cur.gtabs
         else
           match cur.gtabs, adm.gtabs with
           | some [cg], some [ag] => some [merge_gtab env cg ag]
           | _, _ => cur.gtabs) := rfl
  rw [hE]
  by_cases hd : flags.dhistory = false
  · exact Or.inl (if_pos hd)
  · rw [if_neg hd]
    cases hg : cur.gtabs with
    | none => exact Or.inl rfl
    | some gl =>
      cases gl with
      | nil => exact Or.inl rfl
      | cons g rest =>
        cases rest with
        | cons g2 rest2 => exact Or.inl rfl
        | nil =>
          cases ha : adm.gtabs with
          | none => exact Or.inl rfl
          | some al =>
            cases al with
            | nil => exact Or.inl rfl
            | cons a arest =>
              cases arest with
              | cons a2 arest2 => exact Or.inl rfl
              | nil => exact Or.inr ⟨g, a, rfl, rfl, rfl⟩

theorem merge_tabs_only_gtabs (flags : VifmInfo) (env : MergeEnv) (cur adm : Doc) :
    merge_tabs flags env cur adm
      = { cur with gtabs := (merge_tabs flags env cur adm).gtabs } := rfl

theorem merge_tabs_skel (flags : VifmInfo) (env : MergeEnv) (cur adm : Doc) :
    docGtabSkel (merge_tabs flags env cur adm) = docGtabSkel cur := by
  have hg : docGtabSkel (merge_tabs flags env cur adm)
      = (merge_tabs flags env cur adm).gtabs.map (fun l => l.map gtabSkel) := rfl
  rcases merge_tabs_gtabs_cases flags env cur adm with h | ⟨cg, ag, h1, h2, h⟩
  · rw [hg, h]; rfl
  · rw [hg, h]
    simp only [docGtabSkel, h1]
    simp [gtabSkel_merge_gtab]

theorem filter_false_append {α : Type} (P : α → Bool) (l : List α)
    (h : ∀ a ∈ l, P a = false) : l.filter P ++ l = l := by
  rw [List.filter_eq_nil_iff.mpr (by intro a ha; simp [h a ha]), List.nil_append]

theorem merge_history_self (x : Option (List String)) : merge_history x x = x := by
  cases x with
  | none => rfl
  | some l =>
    by_cases hl : l = []
    · subst hl; rfl
    · simp only [merge_history, arrContents, Option.getD, if_neg hl]
      rw [filter_self_not_contains l, List.nil_append]

theorem merge_commands_self (x : Option (List (String × String))) :
    merge_commands x x = x := by
  cases x with
  | none => rfl
  | some l =>
    simp only [merge_commands, arrContents, Option.getD]
    refine congrArg some (foldl_fix _ l l ?_)
    intro p hp
    rw [if_pos (objHas_of_mem l p hp)]

theorem merge_regs_self (x : Option (List (String × List String))) :
    merge_regs x x = x := by
  cases x with
  | none => rfl
  | some l =>
    simp only [merge_regs, arrContents, Option.getD]
    refine congrArg some (foldl_fix _ l l ?_)
    intro p hp
    rw [if_pos (objHas_of_mem l p hp)]

theorem merge_marks_self (marksTs : Char → Option Int)
    (x : Option (List (String × MarkObj))) (hu : keysUnique (arrContents x)) :
    merge_marks marksTs x x = x := by
  cases x with
  | none => rfl
  | some l =>
    simp only [merge_marks, arrContents, Option.getD]
    refine congrArg some (foldl_fix _ l l ?_)
    intro p hp
    have hl : objLookup l p.1 = some p.2 :=
      objLookup_of_keysUnique l p.1 p.2 hu (by simpa using hp)
    by_cases hc : markWins marksTs p = true
    · rw [if_pos hc, objSet_self l p.1 p.2 hl]
    · rw [if_neg hc]

theorem merge_bmarks_self (bmarksTs : String → Option Int)
    (x : Option (List (String × BmarkObj))) (hu : keysUnique (arrContents x)) :
    merge_bmarks bmarksTs x x = x := by
  cases x with
  | none => rfl
  | some l =>
    simp only [merge_bmarks, arrContents, Option.getD]
    refine congrArg some (foldl_fix _ l l ?_)
    intro p hp
    have hl : objLookup l p.1 = some p.2 :=
      objLookup_of_keysUnique l p.1 p.2 hu (by simpa using hp)
    by_cases hc : bmarkWins bmarksTs p = true
    · rw [if_pos hc, objSet_self l p.1 p.2 hl]
    · rw [if_neg hc]

theorem merge_assocs_self (ex : String → String → Bool) (x : Option (List AssocEntry))
    (h : ∀ e ∈ arrContents x, ∀ m c, e.matchers = some m → e.cmd = some c →
      ex m c = true) :
    merge_assocs ex x x = x := by
  cases x with
  | none => rfl
  | some l =>
    simp only [merge_assocs, arrContents, Option.getD]
    refine congrArg some ?_
    have hfa : ∀ e ∈ l, assocNew ex e = false := by
      intro e he
      cases hm : e.matchers with
      | none => simp [assocNew, hm]
      | some m =>
        cases hc : e.cmd with
        | none => simp [assocNew, hm, hc]
        | some c => simp [assocNew, hm, hc, h e he m c hm hc]
    rw [List.filter_eq_nil_iff.mpr (by intro a ha; simp [hfa a ha]), List.append_nil]

theorem merge_trash_self (hasEntry : String → String → Bool)
    (x : Option (List TrashEntry))
    (h : ∀ e ∈ arrContents x, ∀ t o, e.trashed = some t → e.original = some o →
      hasEntry o t = true) :
    merge_trash hasEntry x x = x := by
  cases x with
  | none => rfl
  | some l =>
    simp only [merge_trash, arrContents, Option.getD]
    refine congrArg some ?_
    have hfa : ∀ e ∈ l, trashNew hasEntry e = false := by
      intro e he
      cases hm : e.trashed with
      | none => simp [trashNew, hm]
      | some t =>
        cases hc : e.original with
        | none => simp [trashNew, hm, hc]
        | some o => simp [trashNew, hm, hc, h e he t o hm hc]
    rw [List.filter_eq_nil_iff.mpr (by intro a ha; simp [hfa a ha]), List.append_nil]

theorem merge_dhistory_self (len : Int) (view : ViewEnv) (isDir : String → Bool)
    (t : PTab)
    (h : ∀ e ∈ arrContents t.history, ∀ d, e.dir = some d → view.contains d = true) :
    merge_dhistory len view isDir t t = t := by
  simp only [merge_dhistory]
  by_cases hc : len - 1 - view.historyPos = 0 ∨ arrContents t.history = []
  · exact if_pos hc
  · rw [if_neg hc]
    have hfa : ∀ e ∈ arrContents t.history, dhistNew view.contains isDir e = false := by
      intro e he
      cases hd : e.dir with
      | none => simp [dhistNew, hd]
      | some d => simp [dhistNew, hd, h e he d hd]
    rw [List.filter_eq_nil_iff.mpr (by intro a ha; simp [hfa a ha]), List.nil_append]
    have hsome : t.history = some (arrContents t.history) := by
      cases ht : t.history with
      | none => exact absurd (by simp [arrContents, ht]) (fun hx => hc (Or.inr hx))
      | some l => simp [arrContents, ht]
    rw [← hsome]

theorem merge_pane_self (len : Int) (view : ViewEnv) (isDir : String → Bool) (p : Pane)
    (h : ∀ t ∈ p.ptabs, ∀ e ∈ arrContents t.history, ∀ d, e.dir = some d →
      view.contains d = true) :
    merge_pane len view isDir p p = p := by
  unfold merge_pane
  split
  · next ct admTab hc ha =>
    have hct : ct = admTab := by
      rw [hc] at ha
      exact (List.cons.injEq .. ▸ ha).1
    subst hct
    rw [merge_dhistory_self len view isDir ct
      (h ct (by rw [hc]; exact List.mem_cons_self ct []))]
    rw [← hc]
  · rfl

theorem merge_pane_at_self (env : MergeEnv) (view : ViewEnv) (i : Nat)
    (panes : List Pane)
    (h : ∀ p, panes.get? i = some p → ∀ t ∈ p.ptabs, ∀ e ∈ arrContents t.history,
      ∀ d, e.dir = some d → view.contains d = true) :
    merge_pane_at env view i panes panes = panes := by
  unfold merge_pane_at
  cases hc : panes.get? i with
  | none => rfl
  | some cp =>
    show listSet panes i (merge_pane env.historyLen view env.is_dir cp cp) = panes
    rw [merge_pane_self env.historyLen view env.is_dir cp (h cp hc)]
    exact listSet_get_self panes i cp hc

theorem merge_gtab_self (env : MergeEnv) (g : GTab)
    (hL : ∀ p, g.panes.get? 0 = some p → ∀ t ∈ p.ptabs, ∀ e ∈ arrContents t.history,
      ∀ d, e.dir = some d → env.lwin.contains d = true)
    (hR : ∀ p, g.panes.get? 1 = some p → ∀ t ∈ p.ptabs, ∀ e ∈ arrContents t.history,
      ∀ d, e.dir = some d → env.rwin.contains d = true) :
    merge_gtab env g g = g := by
  unfold merge_gtab
  rw [merge_pane_at_self env env.lwin 0 g.panes hL,
    merge_pane_at_self env env.rwin 1 g.panes hR]

theorem merge_tabs_self (flags : VifmInfo) (env : MergeEnv) (D : Doc)
    (hL : ∀ g ∈ arrContents D.gtabs, ∀ p, g.panes.get? 0 = some p →
      ∀ t ∈ p.ptabs, ∀ e ∈ arrContents t.history, ∀ d, e.dir = some d →
        env.lwin.contains d = true)
    (hR : ∀ g ∈ arrContents D.gtabs, ∀ p, g.panes.get? 1 = some p →
      ∀ t ∈ p.ptabs, ∀ e ∈ arrContents t.history, ∀ d, e.dir = some d →
        env.rwin.contains d = true) :
    merge_tabs flags env D D = D := by
  suffices h : (merge_tabs flags env D D).gtabs = D.gtabs by
    rw [merge_tabs_only_gtabs flags env D D, h]
  show (if flags.dhistory = false then D.gtabs
       else
         match D.gtabs, D.gtabs with
         | some [cg], some [ag] => some [merge_gtab env cg ag]
         | _, _ => D.gtabs) = D.gtabs
  by_cases hd : flags.dhistory = false
  · exact if_pos hd
  · rw [if_neg hd]
    cases hg : D.gtabs with
    | none => rfl
    | some gl =>
      cases gl with
      | nil => rfl
      | cons g rest =>
        cases rest with
        | cons g2 rest2 => rfl
        | nil =>
          show some [merge_gtab env g g] = some [g]
          have hmem : g ∈ arrContents D.gtabs := by simp [arrContents, hg]
          rw [merge_gtab_self env g (hL g hmem) (hR g hmem)]

theorem merge_dir_stack_self (changed : Bool) (D : Doc) :
    merge_dir_stack changed D D = D := by
  suffices h : (if !changed then
      match D.dirStack with
      | some v => some v
      | none => D.dirStack
      else D.dirStack) = D.dirStack by
    show ({ D with dirStack := _ } : Doc) = D
    rw [h]
  cases changed
  · cases hd : D.dirStack with
    | none => simp
    | some v => simp [hd]
  · simp

/-- C5: merging a document with itself as admixture changes nothing observable
— for a document `D` captured from the live model it reflects (keyed sections
have unique keys, and the live membership oracles — association existence,
trash existence, in-memory directory-history membership — answer positively
for everything `D` holds), `merge_states` returns `D` itself, so the result
has the same sections, no duplicate keys and no duplicate array entries. -/
theorem C5_merge_self_identity (flags : VifmInfo) (env : MergeEnv) (D : Doc)
    (hmk : keysUnique (arrContents D.marks))
    (hbk : keysUnique (arrContents D.bmarks))
    (hassoc : ∀ e ∈ arrContents D.assocs, ∀ m c, e.matchers = some m →
      e.cmd = some c → env.assocExists m c = true)
    (hxassoc : ∀ e ∈ arrContents D.xassocs, ∀ m c, e.matchers = some m →
      e.cmd = some c → env.xassocExists m c = true)
    (hview : ∀ e ∈ arrContents D.viewers, ∀ m c, e.matchers = some m →
      e.cmd = some c → env.viewerExists m c = true)
    (htrash : ∀ e ∈ arrContents D.trash, ∀ t o, e.trashed = some t →
      e.original = some o → env.trashHasEntry o t = true)
    (hL : ∀ g ∈ arrContents D.gtabs, ∀ p, g.panes.get? 0 = some p →
      ∀ t ∈ p.ptabs, ∀ e ∈ arrContents t.history, ∀ d, e.dir = some d →
        env.lwin.contains d = true)
    (hR : ∀ g ∈ arrContents D.gtabs, ∀ p, g.panes.get? 1 = some p →
      ∀ t ∈ p.ptabs, ∀ e ∈ arrContents t.history, ∀ d, e.dir = some d →
        env.rwin.contains d = true) :
    merge_states flags env D D = D := by
  have hft : merge_states_filetypes flags env D D = D := by
    unfold merge_states_filetypes
    rw [merge_assocs_self env.assocExists D.assocs hassoc,
      merge_assocs_self env.xassocExists D.xassocs hxassoc,
      merge_assocs_self env.viewerExists D.viewers hview]
    rw [show ({ D with assocs := D.assocs, xassocs := D.xassocs, viewers := D.viewers } : Doc) = D from rfl, ite_self]
  have hcm : merge_states_commands flags D D = D := by
    unfold merge_states_commands
    rw [merge_commands_self D.cmds]
    rw [show ({ D with cmds := D.cmds } : Doc) = D from rfl, ite_self]
  have hma : merge_states_marks flags env D D = D := by
    unfold merge_states_marks
    rw [merge_marks_self env.marksTs D.marks hmk]
    rw [show ({ D with marks := D.marks } : Doc) = D from rfl, ite_self]
  have hbm : merge_states_bmarks flags env D D = D := by
    unfold merge_states_bmarks
    rw [merge_bmarks_self env.bmarksTs D.bmarks hbk]
    rw [show ({ D with bmarks := D.bmarks } : Doc) = D from rfl, ite_self]
  have hch : merge_states_chist flags D D = D := by
    unfold merge_states_chist
    rw [merge_history_self D.cmdHist]
    rw [show ({ D with cmdHist := D.cmdHist } : Doc) = D from rfl, ite_self]
  have hsh : merge_states_shist flags D D = D := by
    unfold merge_states_shist
    rw [merge_history_self D.searchHist]
    rw [show ({ D with searchHist := D.searchHist } : Doc) = D from rfl, ite_self]
  have hph : merge_states_phist flags D D = D := by
    unfold merge_states_phist
    rw [merge_history_self D.promptHist]
    rw [show ({ D with promptHist := D.promptHist } : Doc) = D from rfl, ite_self]
  have hfh : merge_states_fhist flags D D = D := by
    unfold merge_states_fhist
    rw [merge_history_self D.lfiltHist]
    rw [show ({ D with lfiltHist := D.lfiltHist } : Doc) = D from rfl, ite_self]
  have hrg : merge_states_regs flags D D = D := by
    unfold merge_states_regs
    rw [merge_regs_self D.regs]
    rw [show ({ D with regs := D.regs } : Doc) = D from rfl, ite_self]
  have hds : merge_states_dirstack flags env D D = D := by
    unfold merge_states_dirstack
    rw [merge_dir_stack_self env.dirStackChanged D, ite_self]
  have htr : merge_states_trash env D D = D := by
    unfold merge_states_trash
    rw [merge_trash_self env.trashHasEntry D.trash htrash]
  unfold merge_states
  rw [merge_tabs_self flags env D hL hR, hft, hcm, hma, hbm, hch, hsh, hph, hfh,
    hrg, hds, htr]

theorem merge_states_proj (flags : VifmInfo) (env : MergeEnv) (cur adm : Doc) :
    (merge_states flags env cur adm).options = cur.options
  ∧ (merge_states flags env cur adm).useTermMultiplexer = cur.useTermMultiplexer
  ∧ (merge_states flags env cur adm).colorScheme = cur.colorScheme
  ∧ (merge_states flags env cur adm).gtabs = (merge_tabs flags env cur adm).gtabs
  ∧ docGtabSkel (merge_states flags env cur adm) = docGtabSkel cur
  ∧ (flags.filetypes = false →
      (merge_states flags env cur adm).assocs = cur.assocs
      ∧ (merge_states flags env cur adm).xassocs = cur.xassocs
      ∧ (merge_states flags env cur adm).viewers = cur.viewers)
  ∧ (flags.commands = false → (merge_states flags env cur adm).cmds = cur.cmds)
  ∧ (flags.marks = false → (merge_states flags env cur adm).marks = cur.marks)
  ∧ (flags.bookmarks = false → (merge_states flags env cur adm).bmarks = cur.bmarks)
  ∧ (flags.chistory = false → (merge_states flags env cur adm).cmdHist = cur.cmdHist)
  ∧ (flags.shistory = false → (merge_states flags env cur adm).searchHist = cur.searchHist)
  ∧ (flags.phistory = false → (merge_states flags env cur adm).promptHist = cur.promptHist)
  ∧ (flags.fhistory = false → (merge_states flags env cur adm).lfiltHist = cur.lfiltHist)
  ∧ (flags.registers = false → (merge_states flags env cur adm).regs = cur.regs)
  ∧ (flags.dirstack = false → (merge_states flags env cur adm).dirStack = cur.dirStack)
  ∧ (flags.dhistory = false → (merge_states flags env cur adm).gtabs = cur.gtabs) := by
  have hgt : (merge_states flags env cur adm).gtabs = (merge_tabs flags env cur adm).gtabs := by
    simp only [merge_states, merge_states_trash, merge_states_dirstack, merge_states_regs,
      merge_states_fhist, merge_states_phist, merge_states_shist, merge_states_chist,
      merge_states_bmarks, merge_states_marks, merge_states_commands,
      merge_states_filetypes, merge_dir_stack, apply_ite Doc.gtabs, ite_self]
  refine ⟨?_, ?_, ?_, hgt, ?_, ?_, ?_, ?_, ?_, ?_, ?_, ?_, ?_, ?_, ?_, ?_⟩
  · simp only [merge_states, merge_states_trash, merge_states_dirstack, merge_states_regs,
      merge_states_fhist, merge_states_phist, merge_states_shist, merge_states_chist,
      merge_states_bmarks, merge_states_marks, merge_states_commands,
      merge_states_filetypes, merge_dir_stack, merge_tabs, apply_ite Doc.options, ite_self]
  · simp only [merge_states, merge_states_trash, merge_states_dirstack, merge_states_regs,
      merge_states_fhist, merge_states_phist, merge_states_shist, merge_states_chist,
      merge_states_bmarks, merge_states_marks, merge_states_commands,
      merge_states_filetypes, merge_dir_stack, merge_tabs,
      apply_ite Doc.useTermMultiplexer, ite_self]
  · simp only [merge_states, merge_states_trash, merge_states_dirstack, merge_states_regs,
      merge_states_fhist, merge_states_phist, merge_states_shist, merge_states_chist,
      merge_states_bmarks, merge_states_marks, merge_states_commands,
      merge_states_filetypes, merge_dir_stack, merge_tabs, apply_ite Doc.colorScheme,
      ite_self]
  · show (merge_states flags env cur adm).gtabs.map (fun l => l.map gtabSkel)
      = docGtabSkel cur
    rw [hgt]
    exact merge_tabs_skel flags env cur adm
  · intro h
    refine ⟨?_, ?_, ?_⟩ <;>
    simp only [merge_states, merge_states_trash, merge_states_dirstack, merge_states_regs,
      merge_states_fhist, merge_states_phist, merge_states_shist, merge_states_chist,
      merge_states_bmarks, merge_states_marks, merge_states_commands,
      merge_states_filetypes, merge_dir_stack, merge_tabs, h, apply_ite Doc.assocs,
      apply_ite Doc.xassocs, apply_ite Doc.viewers, ite_self, Bool.false_eq_true,
      if_false]
  · intro h
    simp only [merge_states, merge_states_trash, merge_states_dirstack, merge_states_regs,
      merge_states_fhist, merge_states_phist, merge_states_shist, merge_states_chist,
      merge_states_bmarks, merge_states_marks, merge_states_commands,
      merge_states_filetypes, merge_dir_stack, merge_tabs, h, apply_ite Doc.cmds,
      ite_self, Bool.false_eq_true, if_false]
  · intro h
    simp only [merge_states, merge_states_trash, merge_states_dirstack, merge_states_regs,
      merge_states_fhist, merge_states_phist, merge_states_shist, merge_states_chist,
      merge_states_bmarks, merge_states_marks, merge_states_commands,
      merge_states_filetypes, merge_dir_stack, merge_tabs, h, apply_ite Doc.marks,
      ite_self, Bool.false_eq_true, if_false]
  · intro h
    simp only [merge_states, merge_states_trash, merge_states_dirstack, merge_states_regs,
      merge_states_fhist, merge_states_phist, merge_states_shist, merge_states_chist,
      merge_states_bmarks, merge_states_marks, merge_states_commands,
      merge_states_filetypes, merge_dir_stack, merge_tabs, h, apply_ite Doc.bmarks,
      ite_self, Bool.false_eq_true, if_false]
  · intro h
    simp only [merge_states, merge_states_trash, merge_states_dirstack, merge_states_regs,
      merge_states_fhist, merge_states_phist, merge_states_shist, merge_states_chist,
      merge_states_bmarks, merge_states_marks, merge_states_commands,
      merge_states_filetypes, merge_dir_stack, merge_tabs, h, apply_ite Doc.cmdHist,
      ite_self, Bool.false_eq_true, if_false]
  · intro h
    simp only [merge_states, merge_states_trash, merge_states_dirstack, merge_states_regs,
      merge_states_fhist, merge_states_phist, merge_states_shist, merge_states_chist,
      merge_states_bmarks, merge_states_marks, merge_states_commands,
      merge_states_filetypes, merge_dir_stack, merge_tabs, h, apply_ite Doc.searchHist,
      ite_self, Bool.false_eq_true, if_false]
  · intro h
    simp only [merge_states, merge_states_trash, merge_states_dirstack, merge_states_regs,
      merge_states_fhist, merge_states_phist, merge_states_shist, merge_states_chist,
      merge_states_bmarks, merge_states_marks, merge_states_commands,
      merge_states_filetypes, merge_dir_stack, merge_tabs, h, apply_ite Doc.promptHist,
      ite_self, Bool.false_eq_true, if_false]
  · intro h
    simp only [merge_states, merge_states_trash, merge_states_dirstack, merge_states_regs,
      merge_states_fhist, merge_states_phist, merge_states_shist, merge_states_chist,
      merge_states_bmarks, merge_states_marks, merge_states_commands,
      merge_states_filetypes, merge_dir_stack, merge_tabs, h, apply_ite Doc.lfiltHist,
      ite_self, Bool.false_eq_true, if_false]
  · intro h
    simp only [merge_states, merge_states_trash, merge_states_dirstack, merge_states_regs,
      merge_states_fhist, merge_states_phist, merge_states_shist, merge_states_chist,
      merge_states_bmarks, merge_states_marks, merge_states_commands,
      merge_states_filetypes, merge_dir_stack, merge_tabs, h, apply_ite Doc.regs,
      ite_self, Bool.false_eq_true, if_false]
  · intro h
    simp only [merge_states, merge_states_trash, merge_states_dirstack, merge_states_regs,
      merge_states_fhist, merge_states_phist, merge_states_shist, merge_states_chist,
      merge_states_bmarks, merge_states_marks, merge_states_commands,
      merge_states_filetypes, merge_dir_stack, merge_tabs, h, apply_ite Doc.dirStack,
      ite_self, Bool.false_eq_true, if_false]
  · intro h
    rw [hgt]
    show (if flags.dhistory = false then cur.gtabs
         else
           match cur.gtabs, adm.gtabs with
           | some [cg], some [ag] => some [merge_gtab env cg ag]
           | _, _ => cur.gtabs) = cur.gtabs
    rw [if_pos h]

theorem serialize_ptabs (flags : VifmInfo) (len : Int) (m : LiveModel) :
    ∀ g ∈ arrContents (serialize_state flags len m).gtabs, ∀ p ∈ g.panes,
      ∀ t ∈ p.ptabs,
        t = store_view flags len m.lwin ∨ t = store_view flags len m.rwin := by
  intro g hg p hp t ht
  have hgv : g = store_gtab flags len m := by
    simpa [serialize_state, arrContents] using hg
  subst hgv
  simp only [store_gtab, List.mem_cons, List.mem_singleton, List.not_mem_nil,
    or_false] at hp
  rcases hp with hp | hp <;> subst hp <;>
    simp only [List.mem_singleton, List.not_mem_nil, or_false] at ht <;>
    subst ht
  · exact Or.inl rfl
  · exact Or.inr rfl

theorem serialize_gtab_mem (flags : VifmInfo) (len : Int) (m : LiveModel) :
    ∀ g ∈ arrContents (serialize_state flags len m).gtabs,
      g = store_gtab flags len m := by
  intro g hg
  simpa [serialize_state, arrContents] using hg

/-- C1 (amended): for every flag-gated section of the schema, an unset flag
bit means the serializer omits the section entirely and the merge engine
leaves current's section untouched; the amendment is that this holds for the
flag-gated sections only — the trash section is serialized whenever the live
trash list is non-empty and merged unconditionally, regardless of the
bitmask. -/
theorem C1_flag_gating (flags : VifmInfo) (len : Int) (m : LiveModel)
    (env : MergeEnv) (cur adm : Doc) (s : InfoSection)
    (h : sectionFlag flags s = false) :
    sectionAbsent (serialize_state flags len m) s
      ∧ sectionUnchanged cur (merge_states flags env cur adm) s := by
  obtain ⟨ho, hm, hcs, hgt, hsk, hft, hcm, hmk, hbm, hch, hsh, hph, hfh, hrg, hds, hdh⟩ :=
    merge_states_proj flags env cur adm
  cases s with
  | options =>
    have hf : flags.options = false := h
    refine ⟨⟨by simp [sectionAbsent, serialize_state, hf], ?_⟩, ho, hsk⟩
    intro g hg p hp t ht
    rcases serialize_ptabs flags len m g hg p hp t ht with hv | hv <;>
      rw [hv] <;> simp [store_view, hf]
  | filetypes =>
    have hf : flags.filetypes = false := h
    exact ⟨⟨by simp [sectionAbsent, serialize_state, hf], by simp [sectionAbsent, serialize_state, hf],
      by simp [sectionAbsent, serialize_state, hf]⟩, hft hf⟩
  | commands =>
    have hf : flags.commands = false := h
    exact ⟨by simp [sectionAbsent, serialize_state, hf], hcm hf⟩
  | marks =>
    have hf : flags.marks = false := h
    exact ⟨by simp [sectionAbsent, serialize_state, hf], hmk hf⟩
  | bookmarks =>
    have hf : flags.bookmarks = false := h
    exact ⟨by simp [sectionAbsent, serialize_state, hf], hbm hf⟩
  | chistory =>
    have hf : flags.chistory = false := h
    exact ⟨by simp [sectionAbsent, serialize_state, hf], hch hf⟩
  | shistory =>
    have hf : flags.shistory = false := h
    exact ⟨by simp [sectionAbsent, serialize_state, hf], hsh hf⟩
  | phistory =>
    have hf : flags.phistory = false := h
    exact ⟨by simp [sectionAbsent, serialize_state, hf], hph hf⟩
  | fhistory =>
    have hf : flags.fhistory = false := h
    exact ⟨by simp [sectionAbsent, serialize_state, hf], hfh hf⟩
  | registers =>
    have hf : flags.registers = false := h
    exact ⟨by simp [sectionAbsent, serialize_state, hf], hrg hf⟩
  | dirstack =>
    have hf : flags.dirstack = false := h
    exact ⟨by simp [sectionAbsent, serialize_state, hf], hds hf⟩
  | dhistory =>
    have hf : flags.dhistory = false := h
    refine ⟨?_, hdh hf⟩
    intro g hg p hp t ht
    rcases serialize_ptabs flags len m g hg p hp t ht with hv | hv <;>
      rw [hv] <;> exact ⟨by simp [store_view, hf], by simp [store_view, hf]⟩
  | tui =>
    have hf : flags.tui = false := h
    refine ⟨⟨?_, ?_⟩, hsk⟩
    · intro g hg
      rw [serialize_gtab_mem flags len m g hg]
      exact ⟨by simp [store_gtab, hf], by simp [store_gtab, hf],
        by simp [store_gtab, hf]⟩
    · intro g hg p hp t ht
      rcases serialize_ptabs flags len m g hg p hp t ht with hv | hv <;>
        rw [hv] <;> simp [store_view, hf]
  | state =>
    have hf : flags.state = false := h
    refine ⟨⟨by simp [sectionAbsent, serialize_state, hf], ?_⟩, hm, hsk⟩
    intro g hg p hp t ht
    rcases serialize_ptabs flags len m g hg p hp t ht with hv | hv <;>
      rw [hv] <;> simp [store_view, hf]
  | cs =>
    have hf : flags.cs = false := h
    exact ⟨by simp [sectionAbsent, serialize_state, hf], hcs⟩

/-- C1 counterexample: with every feature-flag bit clear, `serialize_state`
still emits the trash section from a non-empty live trash, and `merge_states`
still merges an admixture trash entry into the current document — so the
claim that every section, including trash, is gated by the bitmask is false. -/
theorem C1_trash_ungated :
    (serialize_state flagsNone 5 m0).trash
      = some [{ trashed := some "/trash/0_f", original := some "/f" }]
    ∧ (merge_states flagsNone envBase curTrash0 admTrash0).trash
      = some [{ trashed := some "/trash/0_g", original := some "/g" }]
    ∧ curTrash0.trash = some [] := by
  refine ⟨rfl, ?_, rfl⟩
  rfl

/-- C1 witness: the gating theorem applied to the commands section with all
flags clear. -/
theorem C1_flag_gating_witness :
    sectionFlag flagsNone InfoSection.commands = false
      ∧ (sectionAbsent (serialize_state flagsNone 5 m0) InfoSection.commands
        ∧ sectionUnchanged curTrash0
            (merge_states flagsNone envBase curTrash0 admTrash0) InfoSection.commands) :=
  ⟨rfl, C1_flag_gating flagsNone 5 m0 envBase curTrash0 admTrash0 InfoSection.commands rfl⟩

/-- C2: for every pair of documents, `merge_history` yields the admixture's
entries that are not in the current list, first and in admixture order,
followed by all of current's entries; concretely, merging current
`["b", "a"]` with admixture `["c", "a"]` gives `["c", "b", "a"]` with no
duplicate of `"a"`. -/
theorem C2_merge_history_shape :
    (∀ cur adm : Option (List String),
      arrContents (merge_history cur adm)
        = (arrContents adm).filter (fun e => !(arrContents cur).contains e)
            ++ arrContents cur)
    ∧ merge_history (some ["b", "a"]) (some ["c", "a"]) = some ["c", "b", "a"] := by
  constructor
  · intro cur adm
    by_cases ha : adm.getD [] = ([] : List String)
    · simp [merge_history, arrContents, ha]
    · simp only [merge_history, arrContents, if_neg ha, Option.getD_some]
  · decide

/-- C6: the scalar accessors return `val != NULL` — a present key whose value
has the wrong JSON type reports success while assigning nothing, contradicting
their own doc comment ("returns non-zero if value was assigned") and making a
wrongly-typed field behave differently from an absent one. -/
theorem C6_wrong_type_not_skipped :
    get_str [("dir", JValue.jbool true)] "dir" = (true, none)
    ∧ get_bool [("dot", JValue.jstr "x")] "dot" = (true, none)
    ∧ get_int [("relpos", JValue.jstr "5")] "relpos" = (true, none)
    ∧ get_double [("ts", JValue.jbool false)] "ts" = (true, none)
    ∧ get_str ([] : List (String × JValue)) "dir" = (false, none) :=
  ⟨rfl, rfl, rfl, rfl, rfl⟩

/-- C7: loading one entry into a full command history does not grow the
capacity (the check is made against the filter history) and drops the oldest
command entry, while checking the command history itself — as the
documentation of `append_to_history` describes — would have grown the
capacity and kept every entry. -/
theorem C7_wrong_history_checked :
    load_history HistKind.cmd histStC7 ["x"]
      = { cmdItems := ["x", "b"], searchItems := [], promptItems := [],
          filterItems := [], historyLen := 2 }
    ∧ append_to_history HistKind.cmd HistKind.cmd histStC7 "x"
      = { cmdItems := ["x", "b", "a"], searchItems := [], promptItems := [],
          filterItems := [], historyLen := 3 } := by
  constructor
  · rfl
  · rfl

/-- C10: a legacy register record whose value is empty puts the terminating
NUL through the `strchr` membership check, which always finds it, so the
reader creates a register entry keyed by the empty string instead of skipping
the record — for any contents of the valid-register alphabet. -/
theorem C10_empty_register_key :
    ∀ valid_registers : List Char,
      legacy_reg_record valid_registers [] [] = [("", [""])] := by
  intro vr
  simp [legacy_reg_record, strchr_hits, cstr, objSet, objLookup, nulChar]

/-- C5 witness: the self-merge identity applied to a concrete captured
document against a live model that reflects it. -/
theorem C5_merge_self_identity_witness :
    (List.map Prod.fst (arrContents docD0.marks)).Nodup
    ∧ merge_states flagsAll envSelf docD0 docD0 = docD0 :=
  ⟨by decide, C5_merge_self_identity flagsAll envSelf docD0
    (show (List.map Prod.fst (arrContents docD0.marks)).Nodup by decide)
    (show (List.map Prod.fst (arrContents docD0.bmarks)).Nodup by decide)
    (fun _ _ _ _ _ _ => rfl) (fun _ _ _ _ _ _ => rfl) (fun _ _ _ _ _ _ => rfl)
    (fun _ _ _ _ _ _ => rfl)
    (fun _ _ _ _ _ _ _ _ _ _ => rfl) (fun _ _ _ _ _ _ _ _ _ _ => rfl)⟩

/-- C3 counterexample: with remaining history capacity exactly one
(`history_len = 2`, `history_pos = 0`), merging a two-entry admixture history
through `merge_tabs` prepends both qualifying entries — the number of
prepended entries is not bounded by the remaining capacity. -/
theorem C3_capacity_not_bounding :
    firstPTabHistory (merge_tabs flagsDhist envBase docC3cur docC3adm) = [dh1, dh2]
    ∧ envBase.historyLen - 1 - envBase.lwin.historyPos = 1 := by
  constructor
  · rfl
  · rfl

/-- C3 (amended): under one global tab and one pane tab per pane on both
sides, and non-zero remaining capacity, the merged directory history is
exactly the admixture entries whose directory passes the membership and
existing-on-disk tests, in admixture order, prepended ahead of all current
entries (an entry whose directory no longer exists never qualifies); the
number of prepended entries is not limited by the remaining capacity, the
merge being skipped outright only when no capacity remains or the admixture
history is empty. -/
theorem C3_dhistory_merge (len : Int) (view : ViewEnv) (isDir : String → Bool)
    (cur adm : PTab) (flags : VifmInfo) (env : MergeEnv) (curD admD : Doc)
    (cg ag : GTab) (cpL apL cpR apR : Pane) (ctL atL ctR atR : PTab)
    (hx : len - 1 - view.historyPos ≠ 0) (hne : arrContents adm.history ≠ [])
    (hdh : flags.dhistory = true)
    (hcg : curD.gtabs = some [cg]) (hag : admD.gtabs = some [ag])
    (hcp : cg.panes = [cpL, cpR]) (hap : ag.panes = [apL, apR])
    (hct : cpL.ptabs = [ctL]) (hatb : apL.ptabs = [atL])
    (hctR : cpR.ptabs = [ctR]) (hatR : apR.ptabs = [atR]) :
    (merge_dhistory len view isDir cur adm).history
      = some ((arrContents adm.history).filter (dhistNew view.contains isDir)
          ++ arrContents cur.history)
    ∧ merge_tabs flags env curD admD
      = { curD with gtabs := some [{ cg with panes :=
          [{ ptabs := [merge_dhistory env.historyLen env.lwin env.is_dir ctL atL] },
           { ptabs := [merge_dhistory env.historyLen env.rwin env.is_dir ctR atR] }] }] } := by
  constructor
  · simp only [merge_dhistory]
    rw [if_neg (by simp [hx, hne])]
  · have hg : (merge_tabs flags env curD admD).gtabs
        = some [merge_gtab env cg ag] := by
      show (if flags.dhistory = false then curD.gtabs
           else
             match curD.gtabs, admD.gtabs with
             | some [cg], some [ag] => some [merge_gtab env cg ag]
             | _, _ => curD.gtabs) = some [merge_gtab env cg ag]
      rw [if_neg (by simp [hdh]), hcg, hag]
    have hgt : merge_gtab env cg ag
        = { cg with panes :=
            [{ ptabs := [merge_dhistory env.historyLen env.lwin env.is_dir ctL atL] },
             { ptabs := [merge_dhistory env.historyLen env.rwin env.is_dir ctR atR] }] } := by
      unfold merge_gtab
      have h0 : merge_pane_at env env.lwin 0 cg.panes ag.panes
          = [merge_pane env.historyLen env.lwin env.is_dir cpL apL, cpR] := by
        unfold merge_pane_at
        rw [hcp, hap]
        rfl
      have h1 : merge_pane_at env env.rwin 1
          [merge_pane env.historyLen env.lwin env.is_dir cpL apL, cpR] ag.panes
          = [merge_pane env.historyLen env.lwin env.is_dir cpL apL,
             merge_pane env.historyLen env.rwin env.is_dir cpR apR] := by
        unfold merge_pane_at
        rw [hap]
        rfl
      rw [h0, h1]
      have hpL : merge_pane env.historyLen env.lwin env.is_dir cpL apL
          = { ptabs := [merge_dhistory env.historyLen env.lwin env.is_dir ctL atL] } := by
        unfold merge_pane
        rw [hct, hatb]
      have hpR : merge_pane env.historyLen env.rwin env.is_dir cpR apR
          = { ptabs := [merge_dhistory env.historyLen env.rwin env.is_dir ctR atR] } := by
        unfold merge_pane
        rw [hctR, hatR]
      rw [hpL, hpR]
    rw [merge_tabs_only_gtabs flags env curD admD, hg, hgt]

/-- C3 witness: the amended directory-history merge theorem at a concrete
one-tab configuration with remaining capacity one and two qualifying
admixture entries. -/
theorem C3_dhistory_merge_witness :
    (2 : Int) - 1 - envBase.lwin.historyPos ≠ 0
    ∧ flagsDhist.dhistory = true
    ∧ (merge_dhistory 2 envBase.lwin (fun _ => true) { ptabEmpty with history := some [] }
        { ptabEmpty with history := some [dh1, dh2] }).history = some [dh1, dh2]
    ∧ merge_tabs flagsDhist envBase docC3cur docC3adm
      = { docC3cur with gtabs := some [{ gtabOf { ptabEmpty with history := some [] } with panes :=
          [{ ptabs := [merge_dhistory envBase.historyLen envBase.lwin envBase.is_dir
              { ptabEmpty with history := some [] }
              { ptabEmpty with history := some [dh1, dh2] }] },
           { ptabs := [merge_dhistory envBase.historyLen envBase.rwin envBase.is_dir
              ptabEmpty ptabEmpty] }] }] } := by
  have h := C3_dhistory_merge 2 envBase.lwin (fun _ => true)
    { ptabEmpty with history := some [] } { ptabEmpty with history := some [dh1, dh2] }
    flagsDhist envBase docC3cur docC3adm
    (gtabOf { ptabEmpty with history := some [] })
    (gtabOf { ptabEmpty with history := some [dh1, dh2] })
    { ptabs := [{ ptabEmpty with history := some [] }] }
    { ptabs := [{ ptabEmpty with history := some [dh1, dh2] }] }
    { ptabs := [ptabEmpty] } { ptabs := [ptabEmpty] }
    { ptabEmpty with history := some [] } { ptabEmpty with history := some [dh1, dh2] }
    ptabEmpty ptabEmpty
    (by decide) (by decide) rfl rfl rfl rfl rfl rfl rfl rfl rfl
  exact ⟨by decide, rfl, h.1.trans (by decide), h.2⟩

/-- C4: for a mark name and a bookmark path present once in the admixture,
merge overwrites the current document's entry under that key exactly when the
admixture entry's timestamp is strictly newer than the current entry's
timestamp (which the live store reflects). -/
theorem C4_newest_wins (marksTs : Char → Option Int) (bmarksTs : String → Option Int)
    (curM l₁ l₂ : List (String × MarkObj)) (k : String) (mc ma : MarkObj) (tc ta : Int)
    (curB b₁ b₂ : List (String × BmarkObj)) (kb : String) (bc ba : BmarkObj)
    (tbc tba : Int)
    (hmc : objLookup curM k = some mc) (hmcts : mc.ts = some tc)
    (hmats : ma.ts = some ta) (hlive : marksTs (strHead k) = some tc)
    (h₁ : ∀ p ∈ l₁, p.1 ≠ k) (h₂ : ∀ p ∈ l₂, p.1 ≠ k)
    (hbc : objLookup curB kb = some bc) (hbcts : bc.ts = some tbc)
    (hbats : ba.ts = some tba) (hliveb : bmarksTs kb = some tbc)
    (hb₁ : ∀ p ∈ b₁, p.1 ≠ kb) (hb₂ : ∀ p ∈ b₂, p.1 ≠ kb) :
    objLookup (arrContents (merge_marks marksTs (some curM)
        (some (l₁ ++ (k, ma) :: l₂)))) k
      = some (if tc < ta then ma else mc)
    ∧ objLookup (arrContents (merge_bmarks bmarksTs (some curB)
        (some (b₁ ++ (kb, ba) :: b₂)))) kb
      = some (if tbc < tba then ba else bc) := by
  constructor
  · have harr : arrContents (merge_marks marksTs (some curM) (some (l₁ ++ (k, ma) :: l₂)))
        = (l₁ ++ (k, ma) :: l₂).foldl
            (fun acc p => if markWins marksTs p then objSet acc p.1 p.2 else acc) curM := rfl
    rw [harr, foldl_condSet_key (markWins marksTs) curM l₁ l₂ k ma h₁ h₂]
    have hcond : markWins marksTs (k, ma) = decide (tc < ta) := by
      simp [markWins, hmats, is_mark_older, hlive]
    rw [hcond, hmc]
    by_cases hlt : tc < ta
    · simp [hlt]
    · simp [hlt]
  · have harr : arrContents (merge_bmarks bmarksTs (some curB) (some (b₁ ++ (kb, ba) :: b₂)))
        = (b₁ ++ (kb, ba) :: b₂).foldl
            (fun acc p => if bmarkWins bmarksTs p then objSet acc p.1 p.2 else acc) curB := rfl
    rw [harr, foldl_condSet_key (bmarkWins bmarksTs) curB b₁ b₂ kb ba hb₁ hb₂]
    have hcond : bmarkWins bmarksTs (kb, ba) = decide (tbc < tba) := by
      simp [bmarkWins, hbats, bmark_is_older, hliveb]
    rw [hcond, hbc]
    by_cases hlt : tbc < tba
    · simp [hlt]
    · simp [hlt]

/-- C4 witness: mark `h` with current timestamp 100 — an admixture timestamp
of 200 overwrites it, one of 50 leaves it unchanged; likewise for a bookmark
path. -/
theorem C4_newest_wins_witness :
    objLookup [("h", markOf "/d" "f" 100)] "h" = some (markOf "/d" "f" 100)
    ∧ objLookup (arrContents (merge_marks (fun _ => some 100)
        (some [("h", markOf "/d" "f" 100)]) (some [("h", markOf "/d2" "f2" 200)]))) "h"
      = some (markOf "/d2" "f2" 200)
    ∧ objLookup (arrContents (merge_marks (fun _ => some 100)
        (some [("h", markOf "/d" "f" 100)]) (some [("h", markOf "/d3" "f3" 50)]))) "h"
      = some (markOf "/d" "f" 100)
    ∧ objLookup (arrContents (merge_bmarks (fun _ => some 100)
        (some [("/p", bmarkOf "t" 100)]) (some [("/p", bmarkOf "t2" 200)]))) "/p"
      = some (bmarkOf "t2" 200)
    ∧ objLookup (arrContents (merge_bmarks (fun _ => some 100)
        (some [("/p", bmarkOf "t" 100)]) (some [("/p", bmarkOf "t3" 50)]))) "/p"
      = some (bmarkOf "t" 100) := by
  have hnew := C4_newest_wins (fun _ => some 100) (fun _ => some 100)
    [("h", markOf "/d" "f" 100)] [] [] "h" (markOf "/d" "f" 100) (markOf "/d2" "f2" 200)
    100 200 [("/p", bmarkOf "t" 100)] [] [] "/p" (bmarkOf "t" 100) (bmarkOf "t2" 200)
    100 200 rfl rfl rfl rfl (by simp) (by simp) rfl rfl rfl rfl (by simp) (by simp)
  have hold := C4_newest_wins (fun _ => some 100) (fun _ => some 100)
    [("h", markOf "/d" "f" 100)] [] [] "h" (markOf "/d" "f" 100) (markOf "/d3" "f3" 50)
    100 50 [("/p", bmarkOf "t" 100)] [] [] "/p" (bmarkOf "t" 100) (bmarkOf "t3" 50)
    100 50 rfl rfl rfl rfl (by simp) (by simp) rfl rfl rfl rfl (by simp) (by simp)
  exact ⟨rfl, hnew.1.trans (by decide), hold.1.trans (by decide),
    hnew.2.trans (by decide), hold.2.trans (by decide)⟩

theorem get_sort_info_loop_length (skCount : Nat) (skLast : Int) :
    ∀ (fuel : Nat) (line : List Char) (j : Nat) (acc : List Int),
      (get_sort_info_loop skCount skLast fuel line j acc).length
        ≤ acc.length + (skCount - j) := by
  intro fuel
  induction fuel with
  | zero =>
    intro line j acc
    simp only [get_sort_info_loop, List.length_reverse]
    omega
  | succ n ih =>
    intro line j acc
    by_cases hstop : line = [] ∨ skCount ≤ j
    · simp only [get_sort_info_loop, if_pos hstop, List.length_reverse]
      omega
    · simp only [get_sort_info_loop, if_neg hstop]
      cases hs : strtol10 line with
      | none => exact ih (skip_char (line.drop 1) ',') j acc
      | some vr =>
        obtain ⟨v, rest⟩ := vr
        dsimp only
        have hj : j < skCount := by
          rcases Nat.lt_or_ge j skCount with h | h
          · exact h
          · exact absurd (Or.inr h) hstop
        have := ih (skip_char rest ',') (j + 1) (clampSort skLast v :: acc)
        simp only [List.length_cons] at this
        omega

theorem get_sort_info_loop_mem (skCount : Nat) (skLast : Int) :
    ∀ (fuel : Nat) (line : List Char) (j : Nat) (acc : List Int),
      ∀ x ∈ get_sort_info_loop skCount skLast fuel line j acc,
        x ∈ acc ∨ ∃ v, x = clampSort skLast v := by
  intro fuel
  induction fuel with
  | zero =>
    intro line j acc x hx
    simp only [get_sort_info_loop, List.mem_reverse] at hx
    exact Or.inl hx
  | succ n ih =>
    intro line j acc x hx
    by_cases hstop : line = [] ∨ skCount ≤ j
    · simp only [get_sort_info_loop, if_pos hstop, List.mem_reverse] at hx
      exact Or.inl hx
    · simp only [get_sort_info_loop, if_neg hstop] at hx
      cases hs : strtol10 line with
      | none =>
        rw [hs] at hx
        exact ih (skip_char (line.drop 1) ',') j acc x hx
      | some vr =>
        obtain ⟨v, rest⟩ := vr
        rw [hs] at hx
        rcases ih (skip_char rest ',') (j + 1) (clampSort skLast v :: acc) x hx with
          hm | hm
        · rcases List.mem_cons.mp hm with hm | hm
          · exact Or.inr ⟨v, hm⟩
          · exact Or.inl hm
        · exact Or.inr hm

/-- C8 (amended): sort-spec parsing reads signed integers separated by commas,
clamps each to the fixed maximum magnitude, skips an unparseable character and
continues with the rest of the line (rather than stopping at the first
unparseable token), stops at end of line or at the column limit, fills the
unfilled trailing slots with the none sentinel and defaults the first slot
when zero fields were parsed. -/
theorem C8_sort_parsing (skCount : Nat) (skLast skNone skDefault : Int)
    (hc : 0 < skCount) (hl : 0 ≤ skLast) :
    (∀ (line : List Char) (fuel j : Nat) (acc : List Int),
      line ≠ [] → j < skCount → strtol10 line = none →
        get_sort_info_loop skCount skLast (fuel + 1) line j acc
          = get_sort_info_loop skCount skLast fuel (skip_char (line.drop 1) ',') j acc)
    ∧ (∀ line : List Char,
        (get_sort_info skCount skLast skNone skDefault line).length = skCount)
    ∧ (∀ line : List Char, ∀ x ∈ get_sort_info skCount skLast skNone skDefault line,
        x = skNone ∨ x = skDefault ∨ (-skLast ≤ x ∧ x ≤ skLast))
    ∧ get_sort_info skCount skLast skNone skDefault []
        = skDefault :: List.replicate (skCount - 1) skNone := by
  refine ⟨?_, ?_, ?_, ?_⟩
  · intro line fuel j acc h1 h2 h3
    have hstop : ¬(line = [] ∨ skCount ≤ j) := by
      push_neg
      exact ⟨h1, h2⟩
    simp only [get_sort_info_loop, if_neg hstop, h3]
  · intro line
    have hlen := get_sort_info_loop_length skCount skLast line.length line 0 []
    simp only [List.length_nil, Nat.zero_add, Nat.sub_zero] at hlen
    simp only [get_sort_info]
    by_cases hp : get_sort_info_loop skCount skLast line.length line 0 [] = []
    · rw [if_pos hp]
      simp only [List.length_cons, List.length_replicate]
      omega
    · rw [if_neg hp]
      simp only [List.length_append, List.length_replicate]
      omega
  · intro line x hx
    simp only [get_sort_info] at hx
    by_cases hp : get_sort_info_loop skCount skLast line.length line 0 [] = []
    · rw [if_pos hp] at hx
      rcases List.mem_cons.mp hx with hm | hm
      · exact Or.inr (Or.inl hm)
      · exact Or.inl (List.eq_of_mem_replicate hm)
    · rw [if_neg hp] at hx
      rcases List.mem_append.mp hx with hm | hm
      · rcases get_sort_info_loop_mem skCount skLast line.length line 0 [] x hm with
          hv | ⟨v, hv⟩
        · cases hv
        · refine Or.inr (Or.inr ?_)
          subst hv
          constructor
          · exact le_min (by omega) (le_max_left (-skLast) v)
          · exact min_le_left skLast (max (-skLast) v)
      · exact Or.inl (List.eq_of_mem_replicate hm)
  · rfl

/-- C8 counterexample: on the line "x,2" the code skips the unparseable
character and parses the 2, while the claimed stop-at-first-unparseable-token
behaviour would parse zero fields and default the first slot — the two
disagree. -/
theorem C8_skip_vs_stop :
    get_sort_info 8 10 11 1 ['x', ',', '2'] = [2, 11, 11, 11, 11, 11, 11, 11]
    ∧ get_sort_info_claim 8 10 11 1 ['x', ',', '2'] = [1, 11, 11, 11, 11, 11, 11, 11]
    ∧ get_sort_info 8 10 11 1 ['x', ',', '2']
        ≠ get_sort_info_claim 8 10 11 1 ['x', ',', '2'] := by
  refine ⟨by decide, by decide, by decide⟩

/-- C8 witness: the amended parsing theorem at the real-sized parameters. -/
theorem C8_sort_parsing_witness :
    0 < 8
    ∧ (0 : Int) ≤ 10
    ∧ (get_sort_info 8 10 11 1 ['9', ',', '3']).length = 8
    ∧ get_sort_info 8 10 11 1 [] = 1 :: List.replicate 7 11 := by
  refine ⟨by decide, by decide, ?_, ?_⟩
  · exact (C8_sort_parsing 8 10 11 1 (by decide) (by decide)).2.1 ['9', ',', '3']
  · exact (C8_sort_parsing 8 10 11 1 (by decide) (by decide)).2.2.2

/-- C9: the loader derives both the view's invert setting and its dot-filter
setting from the same on-disk `invert` key — the loaded hide-dot value equals
the loaded invert value and the result never depends on the document's `dot`
field — while the serializer does write a `dot` key from the view. -/
theorem C9_filters_same_key :
    (∀ (env : FilterEnv) (f : FiltersObj) (v : ViewSt),
      (load_filters env (some f) v).invert = f.invert.getD v.invert
      ∧ (load_filters env (some f) v).hideDot = f.invert.getD v.hideDot
      ∧ (∀ d, load_filters env (some { f with dot := d }) v = load_filters env (some f) v))
    ∧ (∀ v : ViewSt, (store_filters v).dot = some v.hideDot) := by
  constructor
  · intro env f v
    refine ⟨?_, ?_, fun d => rfl⟩
    · cases hi : f.invert <;> cases hm : f.manual <;> cases ha : f.auto <;>
        simp [load_filters, hi, hm, ha, set_manual_filter, dot_filter_set,
          apply_ite ViewSt.invert, ite_self]
    · cases hi : f.invert <;> cases hm : f.manual <;> cases ha : f.auto <;>
        simp [load_filters, hi, hm, ha, set_manual_filter, dot_filter_set,
          apply_ite ViewSt.hideDot, ite_self]
  · intro v
    rfl
